import Mathlib

/-!
# Verification of the KnowYourCrowd game core

Shallow embedding of the game's core logic, translated from the JavaScript
sources:

* `src/services/score-calculator.js` (`ScoreCalculator`)
* `src/services/room-manager.js`    (`RoomManager`)
* `src/services/game-logic.js`      (`GameLogic`)

Mutable class state becomes explicit state records; socket/database/timer
side effects (event emission, best-effort persistence, wall-clock timers)
are effect-free in the sources' game-state semantics and are dropped;
`Math.random`-driven data (room codes, UUIDs, the answer shuffle) and the
current time become explicit parameters.  JavaScript strings are modelled
by Lean `String` with explicit data-level helpers mirroring
`trim` / `substring` / `toLowerCase` / `toUpperCase`.
-/

namespace KnowYourCrowd

/-! ## JavaScript string primitives -/
/-- Whitespace set trimmed by JavaScript `String.prototype.trim`
(restricted to the ASCII whitespace characters that can occur here). -/
def jsIsWs (c : Char) : Bool :=
  c == ' ' || c == '\t' || c == '\n' || c == '\r' || c == '\x0b' || c == '\x0c'

/-- JavaScript `s.trim()`: strip leading and trailing whitespace. -/
def jsTrim (s : String) : String :=
  ⟨((s.data.dropWhile jsIsWs).reverse.dropWhile jsIsWs).reverse⟩

/-- JavaScript `s.substring(0, n)`: the first `n` characters. -/
def jsTake (s : String) (n : Nat) : String :=
  ⟨s.data.take n⟩

/-- JavaScript `s.toLowerCase()` (ASCII case mapping). -/
def jsToLower (s : String) : String :=
  ⟨s.data.map Char.toLower⟩

/-- JavaScript `s.toUpperCase()` (ASCII case mapping). -/
def jsToUpper (s : String) : String :=
  ⟨s.data.map Char.toUpper⟩

/-- A JavaScript value as far as `validateRoom`'s dynamic checks can
distinguish it: `null`, `undefined`, a string, a number or a boolean. -/
inductive JSVal where
  | vnull
  | vundefined
  | vstr (s : String)
  | vnum (n : Int)
  | vbool (b : Bool)
  deriving DecidableEq

/-- JavaScript truthiness test `!v` (negated): `null`, `undefined`, the
empty string, `0` and `false` are falsy. -/
def JSVal.falsy : JSVal → Bool
  | .vnull => true
  | .vundefined => true
  | .vstr s => s == ""
  | .vnum n => n == 0
  | .vbool b => !b

/-- JavaScript `typeof v === 'string'`. -/
def JSVal.isString : JSVal → Bool
  | .vstr _ => true
  | _ => false

/-! ## Score Engine (`src/services/score-calculator.js`) -/
/-- One host guess, as in `{playerId, answerIndex}` (`matches` array). -/
structure MatchGuess where
  playerId : String
  answerIndex : Nat
  deriving DecidableEq

/-- One entry of the shuffled answer list shown to the host:
`{index, answer, playerId}` (built in `startMatchingPhase`). -/
structure ShuffledAnswer where
  index : Nat
  answer : String
  playerId : String
  deriving DecidableEq

/-- A player as the Score Engine reads it (`players` argument). -/
structure Player where
  id : String
  socketId : String
  name : String
  score : Int
  isHost : Bool
  isConnected : Bool
  joinOrder : Nat
  sessionToken : String
  isTiedPlayer : Bool
  deriving DecidableEq

/-- The `{id, name}` projection pushed into round results. -/
structure PlayerRef where
  id : String
  name : String
  deriving DecidableEq

/-- One element of the array returned by `calculateRoundResults`. -/
structure RoundResult where
  guessedPlayerId : String
  guessedPlayer : PlayerRef
  actualPlayerId : String
  actualPlayer : Option PlayerRef
  answer : String
  isCorrect : Bool
  deriving DecidableEq

/-- `ScoreCalculator.calculateRoundResults(matches, shuffledAnswers, players)`:
for each match, look up the guessed player by id and the shuffled-answer
entry at `answerIndex`; when both resolve, push a result whose actual
author is the `playerId` stored at that shuffled position and whose
`isCorrect` compares the guess with that stored id; otherwise push
nothing. -/
def calculateRoundResults (guesses : List MatchGuess)
    (shuffledAnswers : List ShuffledAnswer) (players : List Player) :
    List RoundResult :=
  match guesses with
  | [] => []
  | m :: rest =>
    let guessedPlayer := players.find? (fun p => p.id == m.playerId)
    let actualAnswer := shuffledAnswers[m.answerIndex]?
    match actualAnswer, guessedPlayer with
    | some sa, some gp =>
      { guessedPlayerId := m.playerId
        guessedPlayer := ⟨gp.id, gp.name⟩
        actualPlayerId := sa.playerId
        actualPlayer := (players.find? (fun p => p.id == sa.playerId)).map
          (fun p => ⟨p.id, p.name⟩)
        answer := sa.answer
        isCorrect := m.playerId == sa.playerId } ::
        calculateRoundResults rest shuffledAnswers players
    | _, _ => calculateRoundResults rest shuffledAnswers players

/-- The record returned by `calculateHostScore`. -/
structure HostScore where
  score : Int
  correctMatches : Nat
  totalMatches : Nat
  isPerfect : Bool
  deriving DecidableEq

/-- `ScoreCalculator.calculateHostScore(results, perfectBonus)`. -/
def calculateHostScore (results : List RoundResult) (perfectBonus : Int) :
    HostScore :=
  let correctMatches := (results.filter (fun r => r.isCorrect)).length
  let totalMatches := results.length
  let isPerfect := correctMatches == totalMatches && totalMatches > 0
  let score : Int :=
    if isPerfect then (correctMatches : Int) + perfectBonus
    else (correctMatches : Int)
  { score := score
    correctMatches := correctMatches
    totalMatches := totalMatches
    isPerfect := isPerfect }

/-! ## Room Registry (`src/services/room-manager.js`)

`RoomManager` holds `currentRoom`, `currentGameId`, an in-memory
`rooms` map and an optional database handle.  The database rows relevant
to room validation are the `games` table rows; `db = null` is modelled as
`db = none`.  Random room codes, UUID game ids and `Date.now()` become
explicit parameters. -/
/-- An in-memory room record (`{code, createdAt, status}`, plus
`closedAt` once closed). -/
structure Room where
  code : String
  createdAt : Nat
  status : String
  closedAt : Option Nat
  deriving DecidableEq

/-- A `games` table row, restricted to the columns that room validation
and closing read or write. -/
structure DbGame where
  id : String
  roomCode : String
  status : String
  deriving DecidableEq

/-- The mutable state of a `RoomManager` instance. -/
structure RoomManagerState where
  currentRoom : Option Room
  currentGameId : Option String
  rooms : List (String × Room)
  db : Option (List DbGame)
  deriving DecidableEq

/-- The fresh `RoomManager` built by the constructor. -/
def RoomManagerState.initial (db : Option (List DbGame)) : RoomManagerState :=
  { currentRoom := none, currentGameId := none, rooms := [], db := db }

/-- `Map.prototype.set`: replace the value under an existing key,
else append the binding. -/
def mapSet (m : List (String × Room)) (k : String) (v : Room) :
    List (String × Room) :=
  if m.any (fun kv => kv.1 == k) then
    m.map (fun kv => if kv.1 == k then (k, v) else kv)
  else m ++ [(k, v)]

/-- `Database.getGameByRoomCode`: `SELECT * FROM games WHERE room_code = ?`. -/
def getGameByRoomCode (games : List DbGame) (code : String) : Option DbGame :=
  games.find? (fun g => g.roomCode == code)

/-- `Database.createGame`: insert a `games` row with status `'lobby'`. -/
def dbCreateGame (games : List DbGame) (gameId roomCode : String) :
    List DbGame :=
  games ++ [{ id := gameId, roomCode := roomCode, status := "lobby" }]

/-- `Database.completeGame`: `UPDATE games SET status = 'completed'
WHERE id = ?`. -/
def dbCompleteGame (games : List DbGame) (gameId : String) : List DbGame :=
  games.map (fun g => if g.id == gameId then { g with status := "completed" }
    else g)

/-- `RoomManager.createRoom`, with the generated room code, the UUID game
id and the clock passed explicitly (in the source they come from
`generateRoomCode()`, `uuidv4()` and `Date.now()`). -/
def createRoom (st : RoomManagerState) (roomCode gameId : String) (now : Nat) :
    RoomManagerState :=
  let room : Room :=
    { code := roomCode, createdAt := now, status := "active", closedAt := none }
  { currentRoom := some room
    currentGameId := some gameId
    rooms := mapSet st.rooms roomCode room
    db := st.db.map (fun games => dbCreateGame games gameId roomCode) }

/-- The body of `RoomManager.validateRoom` past its falsy/non-string
guard: normalise with `toUpperCase().trim()`, then accept if the code
matches the current room, is a key of the in-memory room map, or (with a
database) names a game whose status is not `'completed'`. -/
def validateRoomStr (st : RoomManagerState) (s : String) : Bool :=
  if (match st.currentRoom with
      | some r => r.code == jsTrim (jsToUpper s)
      | none => false) then true
  else if st.rooms.any (fun kv => kv.1 == jsTrim (jsToUpper s)) then true
  else
    match st.db with
    | some games =>
      match getGameByRoomCode games (jsTrim (jsToUpper s)) with
      | some game => game.status != "completed"
      | none => false
    | none => false

/-- `RoomManager.validateRoom(code)`: `false` for falsy or non-string
input (`if (!code || typeof code !== 'string') return false`), otherwise
the string-path check. -/
def validateRoom (st : RoomManagerState) (code : JSVal) : Bool :=
  if code.falsy || !code.isString then false
  else
    match code with
    | .vstr s => validateRoomStr st s
    | _ => false

/-- `RoomManager.closeRoom(code)`: if the code is in the in-memory map,
mark that room closed, drop `currentRoom` when it is the one being
closed, complete the current game in the database, and return `true`;
otherwise return `false`. -/
def closeRoom (st : RoomManagerState) (code : String) (now : Nat) :
    RoomManagerState × Bool :=
  if st.rooms.any (fun kv => kv.1 == code) then
    let rooms' := st.rooms.map (fun kv =>
      if kv.1 == code then
        (kv.1, { kv.2 with status := "closed", closedAt := some now })
      else kv)
    let currentRoom' :=
      match st.currentRoom with
      | some r => if r.code == code then none else some r
      | none => none
    let db' :=
      match st.db, st.currentGameId with
      | some games, some gid => some (dbCompleteGame games gid)
      | d, _ => d
    ({ st with rooms := rooms', currentRoom := currentRoom', db := db' }, true)
  else (st, false)

/-! ## Claims about the Room Registry -/
/-- The registry state after creating room `ABCD` (no database attached,
as the constructor default allows) and then closing it. -/
def closedRoomState : RoomManagerState :=
  (closeRoom (createRoom (RoomManagerState.initial none) "ABCD" "game-1" 0)
    "ABCD" 1).1

/-! ## Game Orchestrator (`src/services/game-logic.js`)

`GameLogic` owns the mutable `gameState`.  Socket emissions, database
writes and timers have no effect on that state and are elided; the
asynchronous theme-provider call only fills `themes` and is elided too.
`uuidv4()`, socket ids and `Date.now()` are explicit parameters.  The
source field `matches` is called `matchGuesses` here (`matches` is a
Lean keyword). -/
/-- A decimal numeral, as JavaScript template interpolation `${n}`
renders a non-negative integer.  The structural `fuel` argument dominates
the number of digits (a number `n > 0` has at most `n` digits). -/
def natReprAux : Nat → Nat → List Char → List Char
  | 0, _, acc => acc
  | fuel + 1, n, acc =>
    if n == 0 then acc
    else natReprAux fuel (n / 10) (Char.ofNat (48 + n % 10) :: acc)

/-- Decimal rendering of a `Nat`, as `${n}` in a template literal. -/
def natRepr (n : Nat) : String :=
  if n == 0 then "0" else ⟨natReprAux n n []⟩

/-- A `{id, name, score}` scoreboard entry. -/
structure ScoreEntry where
  id : String
  name : String
  score : Int
  deriving DecidableEq

/-- Stable insertion of an entry into a list sorted by descending score:
existing entries with a strictly greater score stay in front, and the
inserted entry goes before existing entries with an equal score (it
originates earlier in the unsorted list). -/
def insertByScoreDesc (x : ScoreEntry) : List ScoreEntry → List ScoreEntry
  | [] => [x]
  | y :: ys =>
    if x.score < y.score then y :: insertByScoreDesc x ys else x :: y :: ys

/-- The result of JavaScript `array.sort((a, b) => b.score - a.score)`:
`Array.prototype.sort` is stable, so the result is the unique
score-descending, original-order-preserving permutation, computed here
by stable insertion sort. -/
def sortByScoreDesc : List ScoreEntry → List ScoreEntry
  | [] => []
  | x :: xs => insertByScoreDesc x (sortByScoreDesc xs)

/-- An element of `gameState.answers`.  Submitted answers carry no
`penalty` property in the source (it reads back as `undefined`, falsy),
modelled as `penalty := false`. -/
structure GameAnswer where
  playerId : String
  playerName : String
  answer : String
  timestamp : Nat
  penalty : Bool
  deriving DecidableEq

/-- The orchestrator's `gameState` (see `createInitialState`).  `phase`
ranges over the source's strings `lobby`, `theme_select`, `answering`,
`matching`, `reveal`, `round_end`, `game_over`, `sudden_death`.
`currentHost` keeps the host's player id (the source stores the player
object itself). -/
structure GameState where
  roomCode : Option String
  players : List Player
  currentRound : Nat
  totalRounds : Nat
  phase : String
  currentHostIndex : Nat
  currentHost : Option String
  selectedTheme : Option String
  themes : List String
  answers : List GameAnswer
  matchGuesses : List MatchGuess
  roundResults : List RoundResult
  revealIndex : Nat
  hostRotationCount : Nat
  isSuddenDeath : Bool
  suddenDeathPlayers : List ScoreEntry
  suddenDeathRound : Nat
  tiedPlayerIds : List String
  tiedPlayerHostIndex : Nat
  deriving DecidableEq

/-- `GameLogic.createInitialState()`. -/
def createInitialState : GameState :=
  { roomCode := none
    players := []
    currentRound := 0
    totalRounds := 0
    phase := "lobby"
    currentHostIndex := 0
    currentHost := none
    selectedTheme := none
    themes := []
    answers := []
    matchGuesses := []
    roundResults := []
    revealIndex := 0
    hostRotationCount := 0
    isSuddenDeath := false
    suddenDeathPlayers := []
    suddenDeathRound := 0
    tiedPlayerIds := []
    tiedPlayerHostIndex := 0 }

/-- `GameLogic.getCurrentHost()`: the player at
`currentHostIndex % players.length`, `null` on an empty roster. -/
def getCurrentHost (gs : GameState) : Option Player :=
  if gs.players.length = 0 then none
  else gs.players[gs.currentHostIndex % gs.players.length]?

/-- The candidate name `` `${baseName}(${nameCounter})` `` tried by the
deduplication loop of `handlePlayerJoin`. -/
def joinNameCandidate (base : String) (k : Nat) : String :=
  base ++ "(" ++ natRepr k ++ ")"

/-- The name-deduplication loop of `handlePlayerJoin`: starting at
counter `k`, take the first `base(k)` whose lowercase form is not among
the existing lowercase names.  The source loop is unbounded; `fuel`
bounds the recursion and `exists_free_candidate` below shows the bound
`existingNames.length + 1` used by `computeJoinName` is never exhausted,
so the fuel-out fallback value is unreachable. -/
def computeJoinNameAux (existingNames : List String) (base : String) :
    Nat → Nat → String
  | k, 0 => joinNameCandidate base k
  | k, fuel + 1 =>
    if existingNames.contains (jsToLower (joinNameCandidate base k)) then
      computeJoinNameAux existingNames base (k + 1) fuel
    else joinNameCandidate base k

/-- The stored player name computed by `handlePlayerJoin`: the trimmed
input truncated to 20 characters, then deduplicated case-insensitively
against the present roster by appending `(2)`, `(3)`, …. -/
def computeJoinName (players : List Player) (name : String) : String :=
  let base := jsTake (jsTrim name) 20
  let existingNames := players.map (fun p => jsToLower p.name)
  if existingNames.contains (jsToLower base) then
    computeJoinNameAux existingNames base 2 (existingNames.length + 1)
  else base

/-- Outcome reported to the joining client. -/
inductive JoinOutcome where
  | rejected (message : String)
  | joined (player : Player)
  deriving DecidableEq

/-- `GameLogic.handlePlayerJoin(socket, {name, roomCode})`, with the
generated UUID id, the socket id and the session token passed
explicitly. -/
def handlePlayerJoin (rm : RoomManagerState) (cfgMaxPlayers : Nat)
    (gs : GameState) (name : String) (roomCode : JSVal)
    (newId socketId sessionToken : String) : GameState × JoinOutcome :=
  if !validateRoom rm roomCode then (gs, .rejected "Invalid room code")
  else if gs.phase != "lobby" then (gs, .rejected "Game already in progress")
  else if gs.players.length ≥ cfgMaxPlayers then (gs, .rejected "Room is full")
  else
    let playerName := computeJoinName gs.players name
    let player : Player :=
      { id := newId
        socketId := socketId
        name := playerName
        score := 0
        isHost := gs.players.length == 0
        isConnected := true
        joinOrder := gs.players.length
        sessionToken := sessionToken
        isTiedPlayer := false }
    ({ gs with
        players := gs.players ++ [player]
        currentHost := if player.isHost then some player.id
          else gs.currentHost },
      .joined player)

/-- The state mutations of `GameLogic.startThemeSelection()`: reset the
round data, recompute the current host from the rotation index and mark
`isHost` on exactly that player.  Theme generation (asynchronous,
external provider) only fills `themes` later and is elided; on an empty
roster the source would throw on `host.id`, modelled as returning the
reset state unchanged. -/
def startThemeSelection (gs : GameState) : GameState :=
  let gs1 := { gs with
    phase := "theme_select"
    selectedTheme := none
    answers := []
    matchGuesses := []
    roundResults := [] }
  match getCurrentHost gs1 with
  | none => gs1
  | some host =>
    { gs1 with
      currentHost := some host.id
      players := gs1.players.map (fun p => { p with isHost := p.id == host.id }) }

/-- `GameLogic.handleStartGame(socket)`: host-only, requires the minimum
player count, fixes `totalRounds = players.length * rotations`, then
starts the first theme selection.  Returns the error message sent to the
caller, if any. -/
def handleStartGame (cfgRotations cfgMinPlayers : Nat) (gs : GameState)
    (playerId : Option String) : GameState × Option String :=
  match playerId.bind (fun pid => gs.players.find? (fun p => p.id == pid)) with
  | none => (gs, some "Only the host can start the game")
  | some player =>
    if !player.isHost then (gs, some "Only the host can start the game")
    else if gs.players.length < cfgMinPlayers then
      (gs, some "Need at least enough players to start")
    else
      (startThemeSelection { gs with
          totalRounds := gs.players.length * cfgRotations
          currentRound := 1
          hostRotationCount := 0 },
        none)

/-- Outcome of an answer submission. -/
inductive SubmitOutcome where
  | rejected (message : String)
  | accepted (stored : String) (allSubmitted : Bool)
  deriving DecidableEq

/-- `GameLogic.handleAnswerSubmit(socket, data)`: rejected (state
unchanged, error to the caller) when the player is unknown, the phase is
not `answering`, the player is the host, the player already submitted,
or the answer is empty after `trim().substring(0, 100)`; otherwise the
truncated trimmed answer is appended.  `allSubmitted` reports whether
the submitted count reached the non-host count, upon which the source
clearly ends the phase (`endAnsweringPhase`, modelled separately). -/
def handleAnswerSubmit (gs : GameState) (playerId : Option String)
    (rawAnswer : String) (now : Nat) : GameState × SubmitOutcome :=
  match playerId.bind (fun pid => gs.players.find? (fun p => p.id == pid)) with
  | none => (gs, .rejected "Player not found")
  | some player =>
    if gs.phase != "answering" then (gs, .rejected "Not in answering phase")
    else if player.isHost then (gs, .rejected "Host does not submit an answer")
    else if gs.answers.any (fun a => a.playerId == player.id) then
      (gs, .rejected "Already submitted")
    else
      let answer := jsTake (jsTrim rawAnswer) 100
      if answer == "" then (gs, .rejected "Answer cannot be empty")
      else
        let gs' := { gs with answers := gs.answers ++
          [{ playerId := player.id
             playerName := player.name
             answer := answer
             timestamp := now
             penalty := false }] }
        (gs', .accepted answer
          (gs'.answers.length ≥ (gs'.players.filter (fun p => !p.isHost)).length))

/-- The `[No Answer]` placeholder `endAnsweringPhase` pushes for a
non-submitting player. -/
def noAnswerEntry (now : Nat) (p : Player) : GameAnswer :=
  { playerId := p.id
    playerName := p.name
    answer := "[No Answer]"
    timestamp := now
    penalty := true }

/-- One iteration of the `nonHostPlayers.forEach` loop in
`GameLogic.endAnsweringPhase()`: if the player has no answer yet, add
the configured no-submission penalty to their score and append the
`[No Answer]` placeholder. -/
def answerPenaltyStep (cfgNoSubmission : Int) (now : Nat) (st : GameState)
    (p : Player) : GameState :=
  if st.answers.any (fun a => a.playerId == p.id) then st
  else
    { st with
      players := st.players.map (fun q =>
        if q.id == p.id then { q with score := q.score + cfgNoSubmission }
        else q)
      answers := st.answers ++ [noAnswerEntry now p] }

/-- The reconciliation loop of `GameLogic.endAnsweringPhase()`: for each
non-host player with no submitted answer, add the configured
no-submission penalty to their score and append a `[No Answer]`
placeholder flagged `penalty: true`.  The trailing persistence calls and
`startMatchingPhase()` (which shuffles a copy of the answers and changes
the phase but never modifies `answers`) are elided. -/
def endAnsweringPhase (cfgNoSubmission : Int) (now : Nat) (gs : GameState) :
    GameState :=
  (gs.players.filter (fun p => !p.isHost)).foldl
    (answerPenaltyStep cfgNoSubmission now) gs

/-- The state mutations of `GameLogic.startSuddenDeath(tiedPlayers)`:
mark the tied players, reset the sudden-death counters and point the
host rotation at the first tied player.  The delayed
`startThemeSelection()` kickoff is a separate step. -/
def startSuddenDeath (gs : GameState) (tiedPlayers : List ScoreEntry) :
    GameState :=
  let tiedPlayerIds := tiedPlayers.map (fun p => p.id)
  let players' := gs.players.map (fun p =>
    { p with isTiedPlayer := tiedPlayerIds.contains p.id })
  { gs with
    isSuddenDeath := true
    suddenDeathRound := 0
    phase := "sudden_death"
    suddenDeathPlayers := tiedPlayers
    tiedPlayerIds := tiedPlayerIds
    players := players'
    currentHostIndex :=
      players'.findIdx (fun p => p.isTiedPlayer)
    tiedPlayerHostIndex := 0 }

/-- `GameLogic.endGame()`: sort the full scoreboard by descending score;
on a first-time tie at the top enter sudden death, otherwise declare
`scoreboard[0]` — the stable-sort head over ALL players — the winner and
move to `game_over`.  The returned option is the emitted winner.  On an
empty roster the source would throw reading `scoreboard[0].score`;
modelled as returning the state unchanged with no winner. -/
def endGame (gs : GameState) : GameState × Option ScoreEntry :=
  let scoreboard :=
    sortByScoreDesc (gs.players.map (fun p => ⟨p.id, p.name, p.score⟩))
  match scoreboard with
  | [] => (gs, none)
  | top :: _ =>
    let tiedPlayers := scoreboard.filter (fun p => p.score == top.score)
    if tiedPlayers.length > 1 && !gs.isSuddenDeath then
      (startSuddenDeath gs tiedPlayers, none)
    else
      ({ gs with phase := "game_over" }, some top)

/-- The tail of the sudden-death branch of `handleNextRound`, reached
only when not every tied player has hosted yet (the wrapped still-tied
path throws before this code, see `handleNextRound`): the tied player at
`tiedPlayerHostIndex` hosts next.  On an out-of-range index the source
would throw on `nextTiedPlayer.id`; modelled as returning the state
unchanged (unreachable here: the guard gives an in-range index). -/
def continueSuddenDeath (gs : GameState) (tiedPlayersList : List Player) :
    GameState :=
  match tiedPlayersList[gs.tiedPlayerHostIndex]? with
  | none => gs
  | some nextTiedPlayer =>
    startThemeSelection { gs with
      currentHostIndex :=
        gs.players.findIdx (fun p => p.id == nextTiedPlayer.id)
      currentRound := gs.currentRound + 1 }

/-- `GameLogic.handleNextRound()`.  In sudden death: advance the
tied-host cursor; once every tied player has hosted, bump the
sudden-death round counter, reset the cursor and re-sort the tied
players' scores.  If exactly one tied player tops that list, `endGame`
runs; otherwise the source next executes `log(...)`
(game-logic.js:802) — but `log` is defined nowhere in the module or its
server-side dependers, so the handler throws `ReferenceError` and exits
abruptly: the counters are already updated, yet `currentRound++` and
`startThemeSelection()` below never run and NO further sudden-death
round starts.  That abrupt exit is modelled by returning the
partially-mutated state with no winner (`handleNextRoundCrashes` below
flags the paths that throw).  When not every tied player has hosted
yet, the next tied player hosts another round.  Outside sudden death:
end the game after the last round, else rotate the host (counting
completed rotations when the index wraps to 0) and start the next
round.  The returned option is the winner emitted by `endGame`, when
reached.  An empty tied list in the wrapped path would likewise throw
(`TypeError` on `tiedScores[0].score`), also modelled as the
partially-mutated state. -/
def handleNextRound (gs : GameState) : GameState × Option ScoreEntry :=
  if gs.isSuddenDeath then
    let gs1 := { gs with tiedPlayerHostIndex := gs.tiedPlayerHostIndex + 1 }
    let tiedPlayersList := gs1.players.filter (fun p => p.isTiedPlayer)
    if gs1.tiedPlayerHostIndex ≥ tiedPlayersList.length then
      let gs2 := { gs1 with
        suddenDeathRound := gs1.suddenDeathRound + 1
        tiedPlayerHostIndex := 0 }
      let tiedScores := sortByScoreDesc
        ((gs2.players.filter (fun p => p.isTiedPlayer)).map
          (fun p => ⟨p.id, p.name, p.score⟩))
      match tiedScores with
      | [] => (gs2, none)
      | top :: _ =>
        let stillTied := tiedScores.filter (fun p => p.score == top.score)
        if stillTied.length == 1 then endGame gs2
        else (gs2, none)
    else (continueSuddenDeath gs1 tiedPlayersList, none)
  else
    if gs.currentRound ≥ gs.totalRounds then endGame gs
    else
      let gs1 := { gs with
        currentHostIndex := (gs.currentHostIndex + 1) % gs.players.length }
      let gs2 :=
        if gs1.currentHostIndex == 0 then
          { gs1 with hostRotationCount := gs1.hostRotationCount + 1 }
        else gs1
      (startThemeSelection { gs2 with currentRound := gs2.currentRound + 1 },
        none)

/-- Whether `GameLogic.handleNextRound()` exits abruptly with an
uncaught exception instead of completing: in the wrapped sudden-death
path it throws `ReferenceError` at the undefined `log`
(game-logic.js:802) whenever more than one tied player still shares the
tied top score, and `TypeError` at `tiedScores[0].score` on an empty
tied list.  All other paths complete normally. -/
def handleNextRoundCrashes (gs : GameState) : Bool :=
  if gs.isSuddenDeath then
    let gs1 : GameState :=
      { gs with tiedPlayerHostIndex := gs.tiedPlayerHostIndex + 1 }
    let tiedPlayersList : List Player :=
      gs1.players.filter (fun p => p.isTiedPlayer)
    if gs1.tiedPlayerHostIndex ≥ tiedPlayersList.length then
      let tiedScores : List ScoreEntry := sortByScoreDesc
        ((gs1.players.filter (fun p => p.isTiedPlayer)).map
          (fun p => ⟨p.id, p.name, p.score⟩))
      match tiedScores with
      | [] => true
      | top :: _ =>
        let stillTied := tiedScores.filter (fun p => p.score == top.score)
        !(stillTied.length == 1)
    else false
  else false

/-- `GameLogic.handleDisconnect(socket)`: mark the player owning the
socket disconnected.  `isHost` is NOT touched; the grace-period timer
only auto-progresses the phase later and never reassigns the host. -/
def handleDisconnect (gs : GameState) (socketId : String) : GameState :=
  match gs.players.find? (fun p => p.socketId == socketId) with
  | none => gs
  | some player =>
    { gs with players := gs.players.map (fun p =>
        if p.id == player.id then { p with isConnected := false } else p) }

/-- The state reached by one `next_round` transition (the state component
of `handleNextRound`). -/
def nextRoundState (gs : GameState) : GameState := (handleNextRound gs).1

/-- The sequence of `currentHostIndex` values over `rounds` successive
rounds starting from `gs` (round 1 hosted at `gs.currentHostIndex`). -/
def hostIndexTrace (gs : GameState) (rounds : Nat) : List Nat :=
  (List.range rounds).map (fun k => (nextRoundState^[k] gs).currentHostIndex)

/-! ## Claims about sudden death (`handleNextRound` / `endGame`) -/
/-- A reachable-shaped sudden-death state: Alice and Bob entered sudden
death tied, Bob has since dropped a point behind Alice (a no-submission
penalty), and non-tied Carol — who kept her 9 points by always
submitting — now outscores both.  The second tied player has just
finished hosting. -/
def suddenDeathCexState : GameState :=
  { createInitialState with
    phase := "round_end"
    isSuddenDeath := true
    suddenDeathRound := 0
    tiedPlayerHostIndex := 1
    tiedPlayerIds := ["alice", "bob"]
    currentRound := 8
    totalRounds := 6
    players :=
      [{ id := "carol", socketId := "s3", name := "Carol", score := 9,
         isHost := false, isConnected := true, joinOrder := 2,
         sessionToken := "t3", isTiedPlayer := false },
       { id := "alice", socketId := "s1", name := "Alice", score := 8,
         isHost := false, isConnected := true, joinOrder := 0,
         sessionToken := "t1", isTiedPlayer := true },
       { id := "bob", socketId := "s2", name := "Bob", score := 7,
         isHost := true, isConnected := true, joinOrder := 1,
         sessionToken := "t2", isTiedPlayer := true }] }

/-- An answering-phase state for the C4 witness: a host, Alice (who
submitted "pizza") and Bob (who never submitted). -/
def answeringCexState : GameState :=
  { createInitialState with
    phase := "answering"
    players :=
      [{ id := "host", socketId := "s0", name := "Hank", score := 2,
         isHost := true, isConnected := true, joinOrder := 0,
         sessionToken := "t0", isTiedPlayer := false },
       { id := "alice", socketId := "s1", name := "Alice", score := 1,
         isHost := false, isConnected := true, joinOrder := 1,
         sessionToken := "t1", isTiedPlayer := false },
       { id := "bob", socketId := "s2", name := "Bob", score := 0,
         isHost := false, isConnected := true, joinOrder := 2,
         sessionToken := "t2", isTiedPlayer := false }]
    answers :=
      [{ playerId := "alice", playerName := "Alice", answer := "pizza",
         timestamp := 5, penalty := false }] }

/-! ## Claims about the single-host invariant -/
/-- The registry after creating room `ABCD`. -/
def traceRm : RoomManagerState :=
  createRoom (RoomManagerState.initial none) "ABCD" "g1" 0

/-- A lobby reached by three joins (Alice, Bob, Carol). -/
def traceLobby : GameState :=
  (handlePlayerJoin traceRm 10
    ((handlePlayerJoin traceRm 10
      ((handlePlayerJoin traceRm 10 createInitialState
        "Alice" (.vstr "ABCD") "id1" "s1" "t1").1)
      "Bob" (.vstr "ABCD") "id2" "s2" "t2").1)
    "Carol" (.vstr "ABCD") "id3" "s3" "t3").1

/-- The game started by the initial host Alice (3 rotations, minimum 3
players), landing in `theme_select`. -/
def traceStarted : GameState := (handleStartGame 3 3 traceLobby (some "id1")).1

/-- The state after the acting host's socket disconnects. -/
def traceDisconnected : GameState := handleDisconnect traceStarted "s1"

/-! ## Claims about join-name deduplication -/
/-- Reference form of the decimal digit list of `n` (most significant
first; empty for 0), used to reason about `natRepr`. -/
def natReprList : Nat → List Char
  | 0 => []
  | n + 1 =>
    natReprList ((n + 1) / 10) ++ [Char.ofNat (48 + (n + 1) % 10)]
decreasing_by exact Nat.div_lt_self (Nat.succ_pos n) (by decide)

/-- The value of a digit list under base-10 evaluation. -/
def digitsVal (l : List Char) : Nat :=
  l.foldl (fun a c => a * 10 + (c.toNat - 48)) 0

/-- The lobby after a first player joins under a maximal-length name of
twenty `A`s. -/
def longNameLobby : GameState :=
  (handlePlayerJoin traceRm 10 createInitialState "AAAAAAAAAAAAAAAAAAAA"
    (.vstr "ABCD") "id1" "s1" "t1").1

/-- The state after a second player joins with the same twenty-`A`
name. -/
def longNameJoined : GameState :=
  (handlePlayerJoin traceRm 10 longNameLobby "AAAAAAAAAAAAAAAAAAAA"
    (.vstr "ABCD") "id2" "s2" "t2").1

/-! ## Claims about the Score Engine -/
/-- C1: per-match behaviour of `calculateRoundResults`.  A match whose
`answerIndex` resolves in the shuffled list and whose guessed id resolves
in the player roster contributes exactly one result, whose actual author
is the id stored at that shuffled position and whose `isCorrect` holds
exactly when the guess equals that stored id; a match failing either
lookup contributes nothing.  Correctness is decided purely against the
shuffled ordering: the original submission order is not an input. -/
theorem claim_C1 (players : List Player) (shuffledAnswers : List ShuffledAnswer)
    (m : MatchGuess) (rest : List MatchGuess) :
    (∀ sa gp, shuffledAnswers[m.answerIndex]? = some sa →
      players.find? (fun p => p.id == m.playerId) = some gp →
      calculateRoundResults (m :: rest) shuffledAnswers players =
        { guessedPlayerId := m.playerId
          guessedPlayer := ⟨gp.id, gp.name⟩
          actualPlayerId := sa.playerId
          actualPlayer := (players.find? (fun p => p.id == sa.playerId)).map
            (fun p => ⟨p.id, p.name⟩)
          answer := sa.answer
          isCorrect := m.playerId == sa.playerId } ::
          calculateRoundResults rest shuffledAnswers players) ∧
    (∀ sa gp, shuffledAnswers[m.answerIndex]? = some sa →
      players.find? (fun p => p.id == m.playerId) = some gp →
      ((m.playerId == sa.playerId : Bool) = true ↔ m.playerId = sa.playerId)) ∧
    (shuffledAnswers[m.answerIndex]? = none ∨
        players.find? (fun p => p.id == m.playerId) = none →
      calculateRoundResults (m :: rest) shuffledAnswers players =
        calculateRoundResults rest shuffledAnswers players) := by
  refine ⟨?_, ?_, ?_⟩
  · intro sa gp hsa hgp
    simp only [calculateRoundResults, hsa, hgp]
  · intro sa gp hsa hgp
    exact beq_iff_eq
  · rintro (hsa | hgp)
    · simp only [calculateRoundResults, hsa]
    · simp only [calculateRoundResults, hgp]
      rcases h : shuffledAnswers[m.answerIndex]? with _ | sa <;> simp

/-- C1 witness: one concrete match against a concrete shuffle.  The guess
points at shuffled position 0, whose stored author is `p2`, so the single
produced result blames `p2` and is incorrect for a guess of `p1`. -/
theorem claim_C1_witness :
    calculateRoundResults
      [⟨"p1", 0⟩]
      [⟨0, "pizza", "p2"⟩]
      [⟨"p1", "s1", "Alice", 0, true, true, 0, "t1", false⟩,
       ⟨"p2", "s2", "Bob", 0, false, true, 1, "t2", false⟩] =
      [{ guessedPlayerId := "p1"
         guessedPlayer := ⟨"p1", "Alice"⟩
         actualPlayerId := "p2"
         actualPlayer := some ⟨"p2", "Bob"⟩
         answer := "pizza"
         isCorrect := false }] := by
  have h := (claim_C1
    [⟨"p1", "s1", "Alice", 0, true, true, 0, "t1", false⟩,
     ⟨"p2", "s2", "Bob", 0, false, true, 1, "t2", false⟩]
    [⟨0, "pizza", "p2"⟩] ⟨"p1", 0⟩ []).1
    ⟨0, "pizza", "p2"⟩ ⟨"p1", "s1", "Alice", 0, true, true, 0, "t1", false⟩
    (by decide) (by decide)
  exact h.trans (by decide)

/-- C3: `calculateHostScore` counts correct results as `correctMatches`,
all results as `totalMatches`, is perfect exactly when all of a nonempty
result list are correct, adds `perfectBonus` exactly on perfect rounds,
and always satisfies `correctMatches ≤ totalMatches`. -/
theorem claim_C3 (results : List RoundResult) (perfectBonus : Int) :
    (calculateHostScore results perfectBonus).correctMatches =
      (results.filter (fun r => r.isCorrect)).length ∧
    (calculateHostScore results perfectBonus).totalMatches = results.length ∧
    ((calculateHostScore results perfectBonus).isPerfect = true ↔
      (calculateHostScore results perfectBonus).correctMatches =
          (calculateHostScore results perfectBonus).totalMatches ∧
        0 < (calculateHostScore results perfectBonus).totalMatches) ∧
    (calculateHostScore results perfectBonus).score =
      ((calculateHostScore results perfectBonus).correctMatches : Int) +
        (if (calculateHostScore results perfectBonus).isPerfect
          then perfectBonus else 0) ∧
    (calculateHostScore results perfectBonus).correctMatches ≤
      (calculateHostScore results perfectBonus).totalMatches := by
  refine ⟨rfl, rfl, ?_, ?_, ?_⟩
  · simp [calculateHostScore]
  · by_cases hperf :
      ((results.filter (fun r => r.isCorrect)).length == results.length &&
        decide (results.length > 0)) = true
    · simp [calculateHostScore, hperf]
    · simp [calculateHostScore, hperf]
  · simpa [calculateHostScore] using List.length_filter_le _ results

/-- C6 counterexample: after `closeRoom`, the room is marked closed and no
active room exists, yet `validateRoom` still accepts its code, because
`closeRoom` leaves the entry in the in-memory map and `validateRoom`
accepts any map key without checking its status.  The claim requires
`false` for codes of closed rooms. -/
theorem claim_C6_counterexample :
    closedRoomState.currentRoom = none ∧
    closedRoomState.rooms.map (fun kv => (kv.1, kv.2.status)) =
      [("ABCD", "closed")] ∧
    validateRoom closedRoomState (.vstr "ABCD") = true := by
  decide

/-- On nonempty string input `validateRoom` runs its string path. -/
theorem validateRoom_vstr (st : RoomManagerState) (s : String) (hs : s ≠ "") :
    validateRoom st (.vstr s) = validateRoomStr st s := by
  unfold validateRoom
  rw [if_neg (by simp [JSVal.falsy, JSVal.isString, hs])]

/-- The if-cascade of the string path is a disjunction of its three
acceptance tests. -/
theorem validateRoomStr_or (st : RoomManagerState) (s : String) :
    validateRoomStr st s =
      ((match st.currentRoom with
        | some r => r.code == jsTrim (jsToUpper s)
        | none => false) ||
       st.rooms.any (fun kv => kv.1 == jsTrim (jsToUpper s)) ||
       (match st.db with
        | some games =>
          match getGameByRoomCode games (jsTrim (jsToUpper s)) with
          | some game => game.status != "completed"
          | none => false
        | none => false)) := by
  unfold validateRoomStr
  cases h1 : (match st.currentRoom with
    | some r => r.code == jsTrim (jsToUpper s)
    | none => false) <;>
  cases h2 : st.rooms.any (fun kv => kv.1 == jsTrim (jsToUpper s)) <;>
    simp [h1, h2]

/-- Acceptance condition of the string path of `validateRoom`. -/
theorem validateRoomStr_eq_true (st : RoomManagerState) (s : String) :
    validateRoomStr st s = true ↔
      ((∃ r, st.currentRoom = some r ∧ r.code = jsTrim (jsToUpper s)) ∨
        st.rooms.any (fun kv => kv.1 == jsTrim (jsToUpper s)) = true ∨
        ∃ games g, st.db = some games ∧
          getGameByRoomCode games (jsTrim (jsToUpper s)) = some g ∧
          g.status ≠ "completed") := by
  rw [validateRoomStr_or]
  simp only [Bool.or_eq_true]
  rw [or_assoc]
  apply or_congr
  · rcases hcr : st.currentRoom with _ | r <;> simp
  · apply or_congr
    · exact Iff.rfl
    · rcases hdb : st.db with _ | games
      · simp
      · rcases hlook : getGameByRoomCode games (jsTrim (jsToUpper s))
          with _ | g <;> simp [hlook]

/-- C6 as amended: `validateRoom` returns true exactly when the input is a
nonempty string whose `toUpperCase().trim()` normalisation matches the
currently active room's code, or is a key of the in-memory room map
(closed rooms stay in that map until purged, so their codes keep
validating), or — when a database is attached — names a stored game whose
status is not `completed`; every other input yields false. -/
theorem claim_C6_amended (st : RoomManagerState) (v : JSVal) :
    validateRoom st v = true ↔
      ∃ s, v = JSVal.vstr s ∧ s ≠ "" ∧
        ((∃ r, st.currentRoom = some r ∧ r.code = jsTrim (jsToUpper s)) ∨
          st.rooms.any (fun kv => kv.1 == jsTrim (jsToUpper s)) = true ∨
          ∃ games g, st.db = some games ∧
            getGameByRoomCode games (jsTrim (jsToUpper s)) = some g ∧
            g.status ≠ "completed") := by
  cases v with
  | vstr s =>
    by_cases hs : s = ""
    · subst hs
      simp [validateRoom, JSVal.falsy, JSVal.isString]
    · rw [validateRoom_vstr st s hs, validateRoomStr_eq_true]
      simp [hs]
  | vnull =>
    simp [validateRoom, JSVal.falsy, JSVal.isString]
  | vundefined =>
    simp [validateRoom, JSVal.falsy, JSVal.isString]
  | vnum n =>
    by_cases hn : n = 0 <;>
      simp [validateRoom, JSVal.falsy, JSVal.isString, hn]
  | vbool b =>
    cases b <;> simp [validateRoom, JSVal.falsy, JSVal.isString]

/-- C10: `validateRoom` is total on arbitrary input and returns `false`
for every non-string argument (`null`, `undefined`, numbers, booleans);
totality on strings is inherent in the model — `validateRoom` is a total
Lean function. -/
theorem claim_C10 (st : RoomManagerState) (v : JSVal)
    (h : v.isString = false) : validateRoom st v = false := by
  cases v <;> simp_all [validateRoom, JSVal.falsy, JSVal.isString]

/-- C10 witness: `validateRoom` on `null` in the fresh registry state. -/
theorem claim_C10_witness :
    validateRoom (RoomManagerState.initial none) JSVal.vnull = false :=
  claim_C10 (RoomManagerState.initial none) JSVal.vnull rfl

/-! ## Properties of the stable score sort -/
theorem mem_insertByScoreDesc {x y : ScoreEntry} {l : List ScoreEntry} :
    y ∈ insertByScoreDesc x l ↔ y = x ∨ y ∈ l := by
  induction l with
  | nil => simp [insertByScoreDesc]
  | cons z zs ih =>
    unfold insertByScoreDesc
    split
    · simp only [List.mem_cons, ih]
      tauto
    · simp only [List.mem_cons]

theorem mem_sortByScoreDesc {y : ScoreEntry} {l : List ScoreEntry} :
    y ∈ sortByScoreDesc l ↔ y ∈ l := by
  induction l with
  | nil => simp [sortByScoreDesc]
  | cons x xs ih =>
    unfold sortByScoreDesc
    rw [mem_insertByScoreDesc, ih, List.mem_cons]

theorem length_insertByScoreDesc (x : ScoreEntry) (l : List ScoreEntry) :
    (insertByScoreDesc x l).length = l.length + 1 := by
  induction l with
  | nil => rfl
  | cons z zs ih =>
    unfold insertByScoreDesc
    split <;> simp [ih]

theorem length_sortByScoreDesc (l : List ScoreEntry) :
    (sortByScoreDesc l).length = l.length := by
  induction l with
  | nil => rfl
  | cons x xs ih =>
    unfold sortByScoreDesc
    rw [length_insertByScoreDesc, ih, List.length_cons]

/-- The head of the sorted scoreboard carries a maximal score. -/
theorem sortByScoreDesc_head_max :
    ∀ (l : List ScoreEntry) (top : ScoreEntry) (rest : List ScoreEntry),
      sortByScoreDesc l = top :: rest → ∀ e ∈ l, e.score ≤ top.score := by
  intro l
  induction l with
  | nil => intro top rest h; cases h
  | cons x xs ih =>
    intro top rest h e he
    rcases hs : sortByScoreDesc xs with _ | ⟨y, ys⟩
    · have hxs : xs = [] := by
        have hlen := length_sortByScoreDesc xs
        rw [hs] at hlen
        exact List.length_eq_zero.mp hlen.symm
      subst hxs
      have h' : [x] = top :: rest := h
      injection h' with hx hrest
      subst hx
      have he' : e = x := by simpa using he
      subst he'
      exact le_refl _
    · have hmax : ∀ e ∈ xs, e.score ≤ y.score := ih y ys hs
      have h' : insertByScoreDesc x (y :: ys) = top :: rest := by
        rw [← h]
        unfold sortByScoreDesc
        rw [hs]
      unfold insertByScoreDesc at h'
      split at h'
      · rename_i hlt
        injection h' with hy hrest
        subst hy
        rcases List.mem_cons.mp he with he' | he'
        · subst he'
          exact le_of_lt hlt
        · exact hmax e he'
      · rename_i hnlt
        injection h' with hx hrest
        subst hx
        rcases List.mem_cons.mp he with he' | he'
        · subst he'
          exact le_refl _
        · exact le_trans (hmax e he') (le_of_not_lt hnlt)

/-- On a nonempty roster `getCurrentHost` always finds a player. -/
theorem getCurrentHost_eq_some (gs : GameState) (h : gs.players ≠ []) :
    ∃ host, getCurrentHost gs = some host ∧
      gs.players[gs.currentHostIndex % gs.players.length]? = some host := by
  have hlen : gs.players.length ≠ 0 := by
    simpa [List.length_eq_zero] using h
  have hlt : gs.currentHostIndex % gs.players.length < gs.players.length :=
    Nat.mod_lt _ (Nat.pos_of_ne_zero hlen)
  refine ⟨gs.players[gs.currentHostIndex % gs.players.length], ?_, ?_⟩
  · unfold getCurrentHost
    rw [if_neg hlen]
    exact List.getElem?_eq_getElem hlt
  · exact List.getElem?_eq_getElem hlt

/-- Fields of the state that `startThemeSelection` sets or leaves
untouched. -/
theorem startThemeSelection_fields (gs : GameState) :
    (startThemeSelection gs).phase = "theme_select" ∧
    (startThemeSelection gs).currentRound = gs.currentRound ∧
    (startThemeSelection gs).totalRounds = gs.totalRounds ∧
    (startThemeSelection gs).currentHostIndex = gs.currentHostIndex ∧
    (startThemeSelection gs).isSuddenDeath = gs.isSuddenDeath ∧
    (startThemeSelection gs).suddenDeathRound = gs.suddenDeathRound ∧
    (startThemeSelection gs).tiedPlayerHostIndex = gs.tiedPlayerHostIndex ∧
    (startThemeSelection gs).hostRotationCount = gs.hostRotationCount ∧
    (startThemeSelection gs).players.length = gs.players.length := by
  unfold startThemeSelection
  dsimp only
  split <;> simp

/-- C2 counterexample: every tied player has hosted and exactly one tied
player (Alice, 8 points) now tops the tied set, so by the claim the game
should declare Alice the winner — but `handleNextRound`/`endGame`
declare the head of the FULL scoreboard, non-tied Carol (9 points). -/
theorem claim_C2_counterexample :
    (sortByScoreDesc ((suddenDeathCexState.players.filter
        (fun p => p.isTiedPlayer)).map
        (fun p => ⟨p.id, p.name, p.score⟩))).map (fun e => (e.id, e.score)) =
      [("alice", 8), ("bob", 7)] ∧
    (suddenDeathCexState.players.filter (fun p => p.isTiedPlayer)).length ≤
      suddenDeathCexState.tiedPlayerHostIndex + 1 ∧
    (handleNextRound suddenDeathCexState).1.phase = "game_over" ∧
    (handleNextRound suddenDeathCexState).2 =
      some ⟨"carol", "Carol", 9⟩ := by
  decide

/-- C2 as amended: once every tied player has hosted
(`tiedPlayerHostIndex` reaches the tied count), the game bumps the
sudden-death round counter, resets the tied-host cursor and re-sorts
the tied players' scores.  If exactly one tied player tops that list
the handler completes: the game moves to `game_over`, declaring the
head of the FULL scoreboard the winner — a maximal scorer over all
players, which is the unique top tied player whenever no non-tied
player outscores the tied set, but can otherwise be a non-tied player.
If several tied players still share the tied top score, no winner is
declared — and no further sudden-death round starts either: the handler
crashes with `ReferenceError` on the undefined identifier `log`
(game-logic.js:802), exiting abruptly with the counters already updated
but the phase, round number and host index untouched. -/
theorem claim_C2_amended (gs : GameState)
    (hsd : gs.isSuddenDeath = true)
    (hwrap : (gs.players.filter (fun p => p.isTiedPlayer)).length ≤
      gs.tiedPlayerHostIndex + 1)
    (top : ScoreEntry) (rest : List ScoreEntry)
    (hsort : sortByScoreDesc ((gs.players.filter (fun p => p.isTiedPlayer)).map
        (fun p => ⟨p.id, p.name, p.score⟩)) = top :: rest) :
    (((top :: rest).filter (fun p => p.score == top.score)).length = 1 →
      ∃ w restAll,
        sortByScoreDesc (gs.players.map (fun p => ⟨p.id, p.name, p.score⟩)) =
          w :: restAll ∧
        (handleNextRound gs).1.phase = "game_over" ∧
        (handleNextRound gs).2 = some w ∧
        handleNextRoundCrashes gs = false ∧
        ∀ p ∈ gs.players, p.score ≤ w.score) ∧
    (((top :: rest).filter (fun p => p.score == top.score)).length ≠ 1 →
      (handleNextRound gs).2 = none ∧
      handleNextRoundCrashes gs = true ∧
      (handleNextRound gs).1.phase = gs.phase ∧
      (handleNextRound gs).1.currentRound = gs.currentRound ∧
      (handleNextRound gs).1.currentHostIndex = gs.currentHostIndex ∧
      (handleNextRound gs).1.suddenDeathRound = gs.suddenDeathRound + 1 ∧
      (handleNextRound gs).1.tiedPlayerHostIndex = 0) := by
  have htiedne : gs.players.filter (fun p => p.isTiedPlayer) ≠ [] := by
    intro hnil
    rw [hnil] at hsort
    simp [sortByScoreDesc] at hsort
  have hplayersne : gs.players ≠ [] := by
    intro hnil
    apply htiedne
    rw [hnil]
    rfl
  have heval : handleNextRound gs =
      (if (((top :: rest).filter (fun p => p.score == top.score)).length == 1)
          = true
        then endGame { gs with
          suddenDeathRound := gs.suddenDeathRound + 1
          tiedPlayerHostIndex := 0 }
        else ({ gs with
          suddenDeathRound := gs.suddenDeathRound + 1
          tiedPlayerHostIndex := 0 }, none)) := by
    unfold handleNextRound
    rw [hsd]
    rw [if_pos rfl]
    dsimp only
    rw [if_pos hwrap]
    rw [hsort]
  have hcrasheval : handleNextRoundCrashes gs =
      !(((top :: rest).filter (fun p => p.score == top.score)).length == 1)
      := by
    unfold handleNextRoundCrashes
    rw [hsd]
    rw [if_pos rfl]
    dsimp only
    rw [if_pos hwrap]
    rw [hsort]
  have hfull : ∃ w restAll,
      sortByScoreDesc (gs.players.map (fun p => ⟨p.id, p.name, p.score⟩)) =
        w :: restAll := by
    rcases hfs : sortByScoreDesc
        (gs.players.map (fun p => ⟨p.id, p.name, p.score⟩)) with _ | ⟨w, r⟩
    · exfalso
      have hlen := length_sortByScoreDesc
        (gs.players.map (fun p => (⟨p.id, p.name, p.score⟩ : ScoreEntry)))
      rw [hfs] at hlen
      simp only [List.length_nil, List.length_map] at hlen
      exact hplayersne (List.length_eq_zero.mp hlen.symm)
    · exact ⟨w, r, hfs⟩
  obtain ⟨w, restAll, hfs⟩ := hfull
  constructor
  · intro h1
    have hend : endGame { gs with
        suddenDeathRound := gs.suddenDeathRound + 1
        tiedPlayerHostIndex := 0 } =
        ({ gs with
            suddenDeathRound := gs.suddenDeathRound + 1
            tiedPlayerHostIndex := 0
            phase := "game_over" }, some w) := by
      unfold endGame
      dsimp only
      rw [hfs]
      dsimp only
      rw [hsd]
      simp
    refine ⟨w, restAll, hfs, ?_, ?_, ?_, ?_⟩
    · rw [heval, if_pos (beq_iff_eq.mpr h1), hend]
    · rw [heval, if_pos (beq_iff_eq.mpr h1), hend]
    · rw [hcrasheval, beq_iff_eq.mpr h1]; rfl
    · intro p hp
      have hmem : (⟨p.id, p.name, p.score⟩ : ScoreEntry) ∈
          gs.players.map (fun p => (⟨p.id, p.name, p.score⟩ : ScoreEntry)) :=
        List.mem_map_of_mem _ hp
      exact sortByScoreDesc_head_max _ w restAll hfs _ hmem
  · intro h1
    have hne : ¬((((top :: rest).filter
        (fun p => p.score == top.score)).length == 1) = true) :=
      fun hc => h1 (beq_iff_eq.mp hc)
    refine ⟨?_, ?_, ?_, ?_, ?_, ?_, ?_⟩
    · rw [heval, if_neg hne]
    · rw [hcrasheval, beq_eq_false_iff_ne.mpr h1]; rfl
    · rw [heval, if_neg hne]
    · rw [heval, if_neg hne]
    · rw [heval, if_neg hne]
    · rw [heval, if_neg hne]
    · rw [heval, if_neg hne]

/-- C2 witness, both halves of the amended theorem on concrete states.
Single-leader half: both tied players have hosted and Alice (8) alone
tops the tied set with no non-tied player above her, so the game ends
with Alice declared winner and no crash.  Still-tied half: Alice and
Bob remain tied at 8 after everyone hosted, so no winner is declared,
the handler hits the `ReferenceError` path, and the phase stays
`round_end` with the sudden-death counter bumped. -/
theorem claim_C2_witness :
    ((handleNextRound { suddenDeathCexState with
        players := suddenDeathCexState.players.filter
          (fun p => p.isTiedPlayer) }).1.phase = "game_over" ∧
     (handleNextRound { suddenDeathCexState with
        players := suddenDeathCexState.players.filter
          (fun p => p.isTiedPlayer) }).2 = some ⟨"alice", "Alice", 8⟩) ∧
    ((handleNextRound { suddenDeathCexState with
        players :=
          [{ id := "alice", socketId := "s1", name := "Alice", score := 8,
             isHost := false, isConnected := true, joinOrder := 0,
             sessionToken := "t1", isTiedPlayer := true },
           { id := "bob", socketId := "s2", name := "Bob", score := 8,
             isHost := true, isConnected := true, joinOrder := 1,
             sessionToken := "t2", isTiedPlayer := true }] }).2 = none ∧
     handleNextRoundCrashes { suddenDeathCexState with
        players :=
          [{ id := "alice", socketId := "s1", name := "Alice", score := 8,
             isHost := false, isConnected := true, joinOrder := 0,
             sessionToken := "t1", isTiedPlayer := true },
           { id := "bob", socketId := "s2", name := "Bob", score := 8,
             isHost := true, isConnected := true, joinOrder := 1,
             sessionToken := "t2", isTiedPlayer := true }] } = true ∧
     (handleNextRound { suddenDeathCexState with
        players :=
          [{ id := "alice", socketId := "s1", name := "Alice", score := 8,
             isHost := false, isConnected := true, joinOrder := 0,
             sessionToken := "t1", isTiedPlayer := true },
           { id := "bob", socketId := "s2", name := "Bob", score := 8,
             isHost := true, isConnected := true, joinOrder := 1,
             sessionToken := "t2", isTiedPlayer := true }] }).1.phase =
       "round_end") := by
  constructor
  · have h := claim_C2_amended
      { suddenDeathCexState with
        players := suddenDeathCexState.players.filter
          (fun p => p.isTiedPlayer) }
      (by decide) (by decide) ⟨"alice", "Alice", 8⟩ [⟨"bob", "Bob", 7⟩]
      (by decide)
    obtain ⟨w, restAll, hfs, hphase, hwin, -, -⟩ := h.1 (by decide)
    have hw : w = ⟨"alice", "Alice", 8⟩ ∧ restAll = [⟨"bob", "Bob", 7⟩] := by
      have hsorted : sortByScoreDesc
          (({ suddenDeathCexState with
              players := suddenDeathCexState.players.filter
                (fun p => p.isTiedPlayer) } : GameState).players.map
            (fun p => ⟨p.id, p.name, p.score⟩)) =
          [⟨"alice", "Alice", 8⟩, ⟨"bob", "Bob", 7⟩] := by decide
      rw [hsorted] at hfs
      exact ⟨(List.cons.inj hfs.symm).1, (List.cons.inj hfs.symm).2⟩
    exact ⟨hphase, by rw [hwin, hw.1]⟩
  · have h := claim_C2_amended
      { suddenDeathCexState with
        players :=
          [{ id := "alice", socketId := "s1", name := "Alice", score := 8,
             isHost := false, isConnected := true, joinOrder := 0,
             sessionToken := "t1", isTiedPlayer := true },
           { id := "bob", socketId := "s2", name := "Bob", score := 8,
             isHost := true, isConnected := true, joinOrder := 1,
             sessionToken := "t2", isTiedPlayer := true }] }
      (by decide) (by decide) ⟨"alice", "Alice", 8⟩ [⟨"bob", "Bob", 8⟩]
      (by decide)
    obtain ⟨hnone, hcrash, hphase, -, -, -, -⟩ := h.2 (by decide)
    exact ⟨hnone, hcrash, hphase⟩

/-! ## Claims about host rotation (`handleNextRound`, regular flow) -/
/-- Outside sudden death and before the last round, `handleNextRound`
advances the host index by one modulo the player count, counts a
completed rotation exactly when the index wraps to 0, increments the
round and starts theme selection. -/
theorem handleNextRound_rotate (gs : GameState)
    (hsd : gs.isSuddenDeath = false)
    (hlt : gs.currentRound < gs.totalRounds) :
    handleNextRound gs =
      (startThemeSelection { gs with
        currentHostIndex := (gs.currentHostIndex + 1) % gs.players.length
        hostRotationCount := gs.hostRotationCount +
          (if (gs.currentHostIndex + 1) % gs.players.length = 0 then 1 else 0)
        currentRound := gs.currentRound + 1 }, none) := by
  unfold handleNextRound
  rw [hsd]
  rw [if_neg (by simp)]
  rw [if_neg (Nat.not_le.mpr hlt)]
  dsimp only
  by_cases h0 : (gs.currentHostIndex + 1) % gs.players.length = 0
  · rw [if_pos (beq_iff_eq.mpr h0), if_pos h0]
  · rw [if_neg (fun hc => h0 (beq_iff_eq.mp hc)), if_neg h0]
    rfl

/-- Invariant of iterating regular rounds: after `k` transitions from a
freshly started game the host index is `k % N` and the round counter is
`k + 1`, while the roster size, the sudden-death flag and the total
round count are unchanged. -/
theorem nextRoundState_iterate (gs : GameState) (N R : Nat)
    (hlen : gs.players.length = N) (hsd : gs.isSuddenDeath = false)
    (htot : gs.totalRounds = N * R) (hr : gs.currentRound = 1)
    (hidx : gs.currentHostIndex = 0) :
    ∀ k, k < N * R →
      (nextRoundState^[k] gs).currentHostIndex = k % N ∧
      (nextRoundState^[k] gs).currentRound = k + 1 ∧
      (nextRoundState^[k] gs).players.length = N ∧
      (nextRoundState^[k] gs).isSuddenDeath = false ∧
      (nextRoundState^[k] gs).totalRounds = N * R := by
  intro k
  induction k with
  | zero =>
    intro _
    simp [Function.iterate_zero, hidx, hr, hlen, hsd, htot]
  | succ k ih =>
    intro hk
    have hk' : k < N * R := Nat.lt_of_succ_lt hk
    obtain ⟨hidx', hr', hlen', hsd', htot'⟩ := ih hk'
    set s := nextRoundState^[k] gs with hs
    have hstep : nextRoundState^[k + 1] gs = nextRoundState s := by
      rw [Function.iterate_succ_apply']
    have hltk : s.currentRound < s.totalRounds := by
      rw [hr', htot']
      exact hk
    have hrot := handleNextRound_rotate s hsd' hltk
    have hsval : nextRoundState s =
        startThemeSelection { s with
          currentHostIndex := (s.currentHostIndex + 1) % s.players.length
          hostRotationCount := s.hostRotationCount +
            (if (s.currentHostIndex + 1) % s.players.length = 0 then 1 else 0)
          currentRound := s.currentRound + 1 } := by
      unfold nextRoundState
      rw [hrot]
    obtain ⟨-, hf2, hf3, hf4, hf5, -, -, -, hf9⟩ :=
      startThemeSelection_fields { s with
        currentHostIndex := (s.currentHostIndex + 1) % s.players.length
        hostRotationCount := s.hostRotationCount +
          (if (s.currentHostIndex + 1) % s.players.length = 0 then 1 else 0)
        currentRound := s.currentRound + 1 }
    rw [hstep, hsval]
    refine ⟨?_, ?_, ?_, ?_, ?_⟩
    · rw [hf4]
      show (s.currentHostIndex + 1) % s.players.length = (k + 1) % N
      rw [hidx', hlen', Nat.mod_add_mod]
    · rw [hf2]
      show s.currentRound + 1 = k + 1 + 1
      rw [hr']
    · rw [hf9]
      show s.players.length = N
      exact hlen'
    · rw [hf5]
      show s.isSuddenDeath = false
      exact hsd'
    · rw [hf3]
      show s.totalRounds = N * R
      exact htot'

/-- Counting appearances of each residue in `0 % N, 1 % N, …`:
over `N * R` consecutive values every residue below `N` appears exactly
`R` times. -/
theorem count_mod_range (N R i : Nat) (hi : i < N) :
    ((List.range (N * R)).map (fun k => k % N)).count i = R := by
  induction R with
  | zero => simp
  | succ R ih =>
    rw [Nat.mul_succ, List.range_add, List.map_append, List.count_append, ih]
    have hmap : (List.map (fun x => N * R + x) (List.range N)).map
        (fun k => k % N) = (List.range N).map (fun k => k % N) := by
      rw [List.map_map]
      apply List.map_congr_left
      intro a ha
      show (N * R + a) % N = a % N
      rw [Nat.mul_add_mod]
    rw [hmap]
    have hmap2 : (List.range N).map (fun k => k % N) = List.range N := by
      have : ∀ a ∈ List.range N, a % N = a := by
        intro a ha
        exact Nat.mod_eq_of_lt (List.mem_range.mp ha)
      calc (List.range N).map (fun k => k % N)
          = (List.range N).map id := List.map_congr_left this
        _ = List.range N := List.map_id _
    rw [hmap2]
    have hcount : (List.range N).count i = 1 :=
      List.count_eq_one_of_mem (List.nodup_range N) (List.mem_range.mpr hi)
    rw [hcount]

/-- C5: outside sudden death, `handleNextRound` (before the final round)
advances the host index by exactly one modulo the player count, counts a
full rotation exactly when the index returns to 0, and never declares a
winner; `handleStartGame` fixes `totalRounds = playerCount * rotations`;
and from a freshly started game the host-index trace over the
`N * rotations` scheduled rounds is `k % N` for round `k+1`, so each of
the `N` join-ordered roster positions hosts exactly `rotations` times. -/
theorem claim_C5 :
    (∀ gs : GameState, gs.isSuddenDeath = false →
      gs.currentRound < gs.totalRounds →
      (handleNextRound gs).1.currentHostIndex =
        (gs.currentHostIndex + 1) % gs.players.length ∧
      (handleNextRound gs).1.hostRotationCount =
        gs.hostRotationCount +
          (if (gs.currentHostIndex + 1) % gs.players.length = 0
            then 1 else 0) ∧
      (handleNextRound gs).2 = none ∧
      (handleNextRound gs).1.currentRound = gs.currentRound + 1) ∧
    (∀ (cfgRotations cfgMinPlayers : Nat) (gs : GameState)
        (pid : Option String) (p : Player),
      pid.bind (fun i => gs.players.find? (fun q => q.id == i)) = some p →
      p.isHost = true →
      cfgMinPlayers ≤ gs.players.length →
      (handleStartGame cfgRotations cfgMinPlayers gs pid).1.totalRounds =
        gs.players.length * cfgRotations) ∧
    (∀ (gs : GameState) (N R : Nat),
      gs.players.length = N →
      gs.isSuddenDeath = false →
      gs.totalRounds = N * R →
      gs.currentRound = 1 →
      gs.currentHostIndex = 0 →
      hostIndexTrace gs (N * R) =
        (List.range (N * R)).map (fun k => k % N) ∧
      ∀ i < N, (hostIndexTrace gs (N * R)).count i = R) := by
  refine ⟨?_, ?_, ?_⟩
  · intro gs hsd hlt
    rw [handleNextRound_rotate gs hsd hlt]
    obtain ⟨-, hf2, -, hf4, -, -, -, hf8, -⟩ :=
      startThemeSelection_fields { gs with
        currentHostIndex := (gs.currentHostIndex + 1) % gs.players.length
        hostRotationCount := gs.hostRotationCount +
          (if (gs.currentHostIndex + 1) % gs.players.length = 0 then 1 else 0)
        currentRound := gs.currentRound + 1 }
    exact ⟨hf4, hf8, rfl, hf2⟩
  · intro cfgRotations cfgMinPlayers gs pid p hfind hhost hmin
    unfold handleStartGame
    rw [hfind]
    dsimp only
    rw [if_neg (by simp [hhost]), if_neg (Nat.not_lt.mpr hmin)]
    obtain ⟨-, -, hf3, -, -, -, -, -, -⟩ :=
      startThemeSelection_fields { gs with
        totalRounds := gs.players.length * cfgRotations
        currentRound := 1
        hostRotationCount := 0 }
    exact hf3
  · intro gs N R hlen hsd htot hr hidx
    have htrace : hostIndexTrace gs (N * R) =
        (List.range (N * R)).map (fun k => k % N) := by
      unfold hostIndexTrace
      apply List.map_congr_left
      intro k hk
      exact (nextRoundState_iterate gs N R hlen hsd htot hr hidx k
        (List.mem_range.mp hk)).1
    refine ⟨htrace, ?_⟩
    intro i hi
    rw [htrace]
    exact count_mod_range N R i hi

/-- C5 witness: a freshly started 2-player, 2-rotation game.  The step
form applies at the initial state, and the trace over the 4 scheduled
rounds is `[0, 1, 0, 1]`: each player hosts exactly twice. -/
theorem claim_C5_witness :
    (handleNextRound { createInitialState with
        players :=
          [{ id := "a", socketId := "s1", name := "A", score := 0,
             isHost := true, isConnected := true, joinOrder := 0,
             sessionToken := "t1", isTiedPlayer := false },
           { id := "b", socketId := "s2", name := "B", score := 0,
             isHost := false, isConnected := true, joinOrder := 1,
             sessionToken := "t2", isTiedPlayer := false }]
        currentRound := 1
        totalRounds := 4
        currentHostIndex := 0
        phase := "round_end" }).1.currentHostIndex = 1 ∧
    hostIndexTrace { createInitialState with
        players :=
          [{ id := "a", socketId := "s1", name := "A", score := 0,
             isHost := true, isConnected := true, joinOrder := 0,
             sessionToken := "t1", isTiedPlayer := false },
           { id := "b", socketId := "s2", name := "B", score := 0,
             isHost := false, isConnected := true, joinOrder := 1,
             sessionToken := "t2", isTiedPlayer := false }]
        currentRound := 1
        totalRounds := 4
        currentHostIndex := 0
        phase := "round_end" } 4 = [0, 1, 0, 1] := by
  constructor
  · exact ((claim_C5.1 _ rfl (by decide)).1).trans (by decide)
  · have h := (claim_C5.2.2 { createInitialState with
      players :=
        [{ id := "a", socketId := "s1", name := "A", score := 0,
           isHost := true, isConnected := true, joinOrder := 0,
           sessionToken := "t1", isTiedPlayer := false },
         { id := "b", socketId := "s2", name := "B", score := 0,
           isHost := false, isConnected := true, joinOrder := 1,
           sessionToken := "t2", isTiedPlayer := false }]
      currentRound := 1
      totalRounds := 4
      currentHostIndex := 0
      phase := "round_end" } 2 2 rfl rfl rfl rfl rfl).1
    exact h.trans (by decide)

/-! ## Claims about end-of-answering reconciliation -/
/-- In a list whose keys are pairwise distinct, a key that occurs at all
occurs exactly once, and an absent key occurs zero times. -/
theorem filter_key_once {α : Type} (key : α → String) :
    ∀ (l : List α) (x : String),
      l.Pairwise (fun a b => key a ≠ key b) →
      ((l.any (fun a => key a == x) = true →
        (l.filter (fun a => key a == x)).length = 1) ∧
       (l.any (fun a => key a == x) = false →
        (l.filter (fun a => key a == x)).length = 0)) := by
  intro l
  induction l with
  | nil => intro x _; simp
  | cons a rest ih =>
    intro x hpw
    obtain ⟨hhead, htail⟩ := List.pairwise_cons.mp hpw
    constructor
    · intro hany
      by_cases hk : (key a == x) = true
      · have hxa : key a = x := beq_iff_eq.mp hk
        have hrest : (rest.filter (fun b => key b == x)).length = 0 := by
          have hnone : rest.any (fun b => key b == x) = false := by
            rw [List.any_eq_false]
            intro b hb
            have : key a ≠ key b := hhead b hb
            simp only [beq_iff_eq]
            rw [← hxa]
            exact fun hc => this hc.symm
          exact (ih x htail).2 hnone
        simp only [List.filter_cons, hk, if_pos, List.length_cons, hrest]
      · have hany' : rest.any (fun b => key b == x) = true := by
          rcases List.any_eq_true.mp hany with ⟨b, hb, hbx⟩
          rcases List.mem_cons.mp hb with rfl | hb'
          · exact absurd hbx hk
          · exact List.any_eq_true.mpr ⟨b, hb', hbx⟩
        have := (ih x htail).1 hany'
        simp only [List.filter_cons, hk]
        simpa using this
    · intro hnone
      have hnone' : ∀ b ∈ a :: rest, ¬(key b == x) = true := by
        rw [← List.any_eq_false]
        exact hnone
      have h1 : (key a == x) = false :=
        Bool.eq_false_iff.mpr (hnone' a (List.mem_cons_self a rest))
      have h2 : rest.any (fun b => key b == x) = false := by
        rw [List.any_eq_false]
        intro b hb
        exact hnone' b (List.mem_cons_of_mem a hb)
      have := (ih x htail).2 h2
      simp only [List.filter_cons, h1]
      simpa using this

/-- Closed form of the `endAnsweringPhase` reconciliation fold: as long
as the processed players carry pairwise-distinct ids, the loop appends
exactly the placeholders of the processed players that had no answer in
the ORIGINAL answer list, and penalises exactly those players'
roster entries. -/
theorem answerPenalty_foldl (pen : Int) (now : Nat) :
    ∀ (L : List Player) (st : GameState),
      L.Pairwise (fun p q => p.id ≠ q.id) →
      (L.foldl (answerPenaltyStep pen now) st).answers =
        st.answers ++
          (L.filter (fun p =>
            !(st.answers.any (fun a => a.playerId == p.id)))).map
            (noAnswerEntry now) ∧
      (L.foldl (answerPenaltyStep pen now) st).players =
        st.players.map (fun q =>
          if L.any (fun p => p.id == q.id) &&
              !(st.answers.any (fun a => a.playerId == q.id))
          then { q with score := q.score + pen } else q) := by
  intro L
  induction L with
  | nil =>
    intro st _
    refine ⟨by simp, ?_⟩
    simp only [List.foldl_nil, List.any_nil, Bool.false_and]
    symm
    calc st.players.map (fun q => if false = true
          then { q with score := q.score + pen } else q)
        = st.players.map id := by
          apply List.map_congr_left
          intro q _
          simp
      _ = st.players := List.map_id _
  | cons p L' ih =>
    intro st hpw
    obtain ⟨hhead, htail⟩ := List.pairwise_cons.mp hpw
    rw [List.foldl_cons]
    by_cases hsub : st.answers.any (fun a => a.playerId == p.id) = true
    · have hstep : answerPenaltyStep pen now st p = st := by
        unfold answerPenaltyStep
        rw [if_pos hsub]
      rw [hstep]
      obtain ⟨ihans, ihpl⟩ := ih st htail
      constructor
      · rw [ihans]
        congr 1
        congr 1
        simp only [List.filter_cons, hsub, Bool.not_true]
        rfl
      · rw [ihpl]
        apply List.map_congr_left
        intro q _
        by_cases hq : (p.id == q.id) = true
        · have : st.answers.any (fun a => a.playerId == q.id) = true := by
            rw [← beq_iff_eq.mp hq]
            exact hsub
          simp [this, hq]
        · simp only [List.any_cons, hq, Bool.false_or]
    · have hsub' : st.answers.any (fun a => a.playerId == p.id) = false :=
        Bool.eq_false_iff.mpr hsub
      have hstep : answerPenaltyStep pen now st p =
          { st with
            players := st.players.map (fun q =>
              if q.id == p.id then { q with score := q.score + pen } else q)
            answers := st.answers ++ [noAnswerEntry now p] } := by
        unfold answerPenaltyStep
        rw [if_neg (by rw [hsub']; exact Bool.false_ne_true)]
      rw [hstep]
      obtain ⟨ihans, ihpl⟩ := ih
        { st with
          players := st.players.map (fun q =>
            if q.id == p.id then { q with score := q.score + pen } else q)
          answers := st.answers ++ [noAnswerEntry now p] } htail
      have hanyeq : ∀ q ∈ L',
          ((st.answers ++ [noAnswerEntry now p]).any
            (fun a => a.playerId == q.id)) =
          (st.answers.any (fun a => a.playerId == q.id)) := by
        intro q hq
        have hpq : (p.id == q.id) = false :=
          beq_eq_false_iff_ne.mpr (hhead q hq)
        simp [List.any_append, noAnswerEntry, hpq]
      constructor
      · rw [ihans]
        dsimp only
        rw [List.append_assoc]
        congr 1
        have hfiltereq : L'.filter (fun q =>
            !((st.answers ++ [noAnswerEntry now p]).any
              (fun a => a.playerId == q.id))) =
            L'.filter (fun q =>
              !(st.answers.any (fun a => a.playerId == q.id))) := by
          apply List.filter_congr
          intro q hq
          rw [hanyeq q hq]
        rw [hfiltereq]
        simp only [List.filter_cons, hsub', Bool.not_false, if_pos]
        rfl
      · rw [ihpl]
        dsimp only
        rw [List.map_map]
        apply List.map_congr_left
        intro q _
        by_cases hq : (q.id == p.id) = true
        · have hqid : q.id = p.id := beq_iff_eq.mp hq
          have hL'q : L'.any (fun r => r.id == q.id) = false := by
            rw [List.any_eq_false]
            intro r hr
            intro hbeq
            exact hhead r hr ((beq_iff_eq.mp hbeq).trans hqid).symm
          have hLany : (p.id == q.id) = true :=
            beq_iff_eq.mpr hqid.symm
          have hnoans : st.answers.any (fun a => a.playerId == q.id)
              = false := by
            rw [hqid]
            exact hsub'
          simp only [Function.comp_apply]
          rw [if_pos hq]
          dsimp only
          rw [hL'q]
          simp only [List.any_cons, hLany, hnoans, Bool.false_and,
            Bool.true_or, Bool.not_false, Bool.and_true]
          simp
        · have hq' : (q.id == p.id) = false := Bool.eq_false_iff.mpr hq
          have hpq : (p.id == q.id) = false :=
            beq_eq_false_iff_ne.mpr
              fun hc => (beq_eq_false_iff_ne.mp hq') hc.symm
          simp only [Function.comp_apply]
          rw [if_neg hq]
          simp only [List.any_append, List.any_cons, List.any_nil,
            noAnswerEntry, Bool.or_false, hpq, Bool.false_or]

/-- Filtering placeholders by player id is filtering the players they
were synthesised from. -/
theorem placeholder_filter (now : Nat) (M : List Player) (x : String) :
    (M.map (noAnswerEntry now)).filter (fun a => a.playerId == x) =
      (M.filter (fun q => q.id == x)).map (noAnswerEntry now) := by
  induction M with
  | nil => rfl
  | cons m ms ih =>
    by_cases hm : (m.id == x) = true
    · simp only [List.map_cons, List.filter_cons]
      rw [show ((noAnswerEntry now m).playerId == x) = true from hm,
        show (m.id == x) = true from hm]
      simp only [if_pos, List.map_cons, ih]
    · have hm' : (m.id == x) = false := Bool.eq_false_iff.mpr hm
      simp only [List.map_cons, List.filter_cons]
      rw [show ((noAnswerEntry now m).playerId == x) = false from hm',
        show (m.id == x) = false from hm']
      simpa using ih

/-- Distinct-id rosters identify players by id. -/
theorem player_id_injective (players : List Player)
    (hids : players.Pairwise (fun p q => p.id ≠ q.id)) :
    ∀ r ∈ players, ∀ q ∈ players, r.id = q.id → r = q := by
  intro r hr q hq heq
  by_contra hne
  exact (hids.forall (fun _ _ h => h.symm) hr hq hne) heq

/-- C4: `endAnsweringPhase` reconciliation.  Under the invariants that
player ids are distinct, answers carry pairwise-distinct player ids, and
every answer belongs to a non-host roster member (all maintained by
`handleAnswerSubmit`), the end of the answering phase appends exactly
one `[No Answer]` placeholder (flagged as penalty) per non-submitting
non-host player and adds the configured penalty to exactly those
players' scores; afterwards the answer list holds exactly one entry per
non-host player and none for the host, and submitted answers are kept
unchanged. -/
theorem claim_C4 (pen : Int) (now : Nat) (gs : GameState)
    (hids : gs.players.Pairwise (fun p q => p.id ≠ q.id))
    (hone : gs.answers.Pairwise (fun a b => a.playerId ≠ b.playerId))
    (hfrom : ∀ a ∈ gs.answers, ∃ p, p ∈ gs.players ∧ a.playerId = p.id ∧
      p.isHost = false) :
    (endAnsweringPhase pen now gs).answers =
      gs.answers ++
        (gs.players.filter (fun p =>
          !p.isHost && !(gs.answers.any (fun a => a.playerId == p.id)))).map
          (noAnswerEntry now) ∧
    (endAnsweringPhase pen now gs).players =
      gs.players.map (fun q =>
        if !q.isHost && !(gs.answers.any (fun a => a.playerId == q.id))
        then { q with score := q.score + pen } else q) ∧
    (∀ p ∈ gs.players, p.isHost = false →
      ((endAnsweringPhase pen now gs).answers.filter
        (fun a => a.playerId == p.id)).length = 1) ∧
    (∀ p ∈ gs.players, p.isHost = true →
      ((endAnsweringPhase pen now gs).answers.filter
        (fun a => a.playerId == p.id)).length = 0) := by
  have hinj := player_id_injective gs.players hids
  have hpwL : (gs.players.filter (fun p => !p.isHost)).Pairwise
      (fun p q => p.id ≠ q.id) := hids.filter _
  obtain ⟨hans, hpl⟩ := answerPenalty_foldl pen now
    (gs.players.filter (fun p => !p.isHost)) gs hpwL
  have hLcomb : (gs.players.filter (fun p => !p.isHost)).filter
      (fun p => !(gs.answers.any (fun a => a.playerId == p.id))) =
      gs.players.filter (fun p =>
        !p.isHost && !(gs.answers.any (fun a => a.playerId == p.id))) := by
    rw [List.filter_filter]
    apply List.filter_congr
    intro q _
    exact Bool.and_comm _ _
  have hans' : (endAnsweringPhase pen now gs).answers =
      gs.answers ++
        (gs.players.filter (fun p =>
          !p.isHost && !(gs.answers.any (fun a => a.playerId == p.id)))).map
          (noAnswerEntry now) := by
    unfold endAnsweringPhase
    rw [hans, hLcomb]
  have hLany : ∀ q ∈ gs.players,
      ((gs.players.filter (fun p => !p.isHost)).any
        (fun p => p.id == q.id)) = !q.isHost := by
    intro q hq
    cases hhost : q.isHost with
    | false =>
      have hmem : q ∈ gs.players.filter (fun p => !p.isHost) :=
        List.mem_filter.mpr ⟨hq, by rw [hhost]; rfl⟩
      simp only [Bool.not_false]
      exact List.any_eq_true.mpr ⟨q, hmem, beq_self_eq_true _⟩
    | true =>
      simp only [Bool.not_true]
      rw [List.any_eq_false]
      intro r hr
      obtain ⟨hrp, hrh⟩ := List.mem_filter.mp hr
      intro hbeq
      have : r = q := hinj r hrp q hq (beq_iff_eq.mp hbeq)
      rw [this, hhost] at hrh
      exact absurd hrh (by decide)
  refine ⟨hans', ?_, ?_, ?_⟩
  · unfold endAnsweringPhase
    rw [hpl]
    apply List.map_congr_left
    intro q hq
    rw [hLany q hq]
  · intro p hp hphost
    rw [hans', List.filter_append, List.length_append,
      placeholder_filter now _ p.id]
    rw [List.length_map]
    set M := gs.players.filter (fun p =>
      !p.isHost && !(gs.answers.any (fun a => a.playerId == p.id))) with hM
    have hpwM : M.Pairwise (fun p q => p.id ≠ q.id) := hids.filter _
    have hpwMkey : M.Pairwise (fun p q => Player.id p ≠ Player.id q) := hpwM
    have hpwA : gs.answers.Pairwise
        (fun a b => GameAnswer.playerId a ≠ GameAnswer.playerId b) := hone
    cases hsub : gs.answers.any (fun a => a.playerId == p.id) with
    | true =>
      have h1 : (gs.answers.filter
          (fun a => a.playerId == p.id)).length = 1 :=
        (filter_key_once GameAnswer.playerId gs.answers p.id hpwA).1 hsub
      have h0 : (M.filter (fun q => q.id == p.id)).length = 0 := by
        apply (filter_key_once Player.id M p.id hpwMkey).2
        rw [List.any_eq_false]
        intro r hr
        obtain ⟨-, hcond⟩ := List.mem_filter.mp hr
        intro hbeq
        have hrid : r.id = p.id := beq_iff_eq.mp hbeq
        have : (gs.answers.any (fun a => a.playerId == r.id)) = false := by
          rcases (Bool.and_eq_true _ _).mp hcond with ⟨-, hnr⟩
          cases hx : gs.answers.any (fun a => a.playerId == r.id) with
          | false => rfl
          | true => rw [hx] at hnr; exact absurd hnr (by decide)
        rw [hrid, hsub] at this
        exact absurd this (by decide)
      rw [h1, h0]
    | false =>
      have h1 : (gs.answers.filter
          (fun a => a.playerId == p.id)).length = 0 :=
        (filter_key_once GameAnswer.playerId gs.answers p.id hpwA).2 hsub
      have hmemM : p ∈ M := by
        apply List.mem_filter.mpr
        refine ⟨hp, ?_⟩
        rw [hphost, hsub]
        rfl
      have h0 : (M.filter (fun q => q.id == p.id)).length = 1 := by
        apply (filter_key_once Player.id M p.id hpwMkey).1
        exact List.any_eq_true.mpr ⟨p, hmemM, beq_self_eq_true _⟩
      rw [h1, h0]
  · intro p hp hphost
    rw [hans', List.filter_append, List.length_append,
      placeholder_filter now _ p.id, List.length_map]
    have hpwA : gs.answers.Pairwise
        (fun a b => GameAnswer.playerId a ≠ GameAnswer.playerId b) := hone
    have hsub : gs.answers.any (fun a => a.playerId == p.id) = false := by
      rw [List.any_eq_false]
      intro a ha
      intro hbeq
      obtain ⟨r, hrp, hra, hrh⟩ := hfrom a ha
      have hrid : r.id = p.id := by rw [← hra]; exact beq_iff_eq.mp hbeq
      have : r = p := hinj r hrp p hp hrid
      rw [this, hphost] at hrh
      exact absurd hrh (by decide)
    have h1 : (gs.answers.filter (fun a => a.playerId == p.id)).length = 0 :=
      (filter_key_once GameAnswer.playerId gs.answers p.id hpwA).2 hsub
    set M := gs.players.filter (fun p =>
      !p.isHost && !(gs.answers.any (fun a => a.playerId == p.id))) with hM
    have hpwMkey : M.Pairwise (fun p q => Player.id p ≠ Player.id q) :=
      hids.filter _
    have h0 : (M.filter (fun q => q.id == p.id)).length = 0 := by
      apply (filter_key_once Player.id M p.id hpwMkey).2
      rw [List.any_eq_false]
      intro r hr
      obtain ⟨hrp, hcond⟩ := List.mem_filter.mp hr
      intro hbeq
      have : r = p := hinj r hrp p hp (beq_iff_eq.mp hbeq)
      rcases (Bool.and_eq_true _ _).mp hcond with ⟨hnh, -⟩
      rw [this, hphost] at hnh
      exact absurd hnh (by decide)
    rw [h1, h0]

/-- C4 witness: ending the answering phase of `answeringCexState` keeps
Alice's answer, synthesises exactly one `[No Answer]` penalty entry for
Bob, gives Bob the −3 penalty, and leaves exactly one answer per
non-host player. -/
theorem claim_C4_witness :
    (endAnsweringPhase (-3) 9 answeringCexState).answers =
      [{ playerId := "alice", playerName := "Alice", answer := "pizza",
         timestamp := 5, penalty := false },
       { playerId := "bob", playerName := "Bob", answer := "[No Answer]",
         timestamp := 9, penalty := true }] ∧
    (endAnsweringPhase (-3) 9 answeringCexState).players.map
      (fun p => (p.id, p.score)) =
      [("host", 2), ("alice", 1), ("bob", -3)] ∧
    ((endAnsweringPhase (-3) 9 answeringCexState).answers.filter
      (fun a => a.playerId == "bob")).length = 1 := by
  have h := claim_C4 (-3) 9 answeringCexState (by decide) (by decide)
    (by decide)
  refine ⟨h.1.trans (by decide), ?_, ?_⟩
  · rw [h.2.1]
    decide
  · exact (h.2.2.1
      { id := "bob", socketId := "s2", name := "Bob", score := 0,
        isHost := false, isConnected := true, joinOrder := 2,
        sessionToken := "t2", isTiedPlayer := false } (by decide) rfl)

/-- Truncating to a positive length preserves (non-)emptiness. -/
theorem jsTake_eq_empty_iff (s : String) (n : Nat) (hn : n ≠ 0) :
    jsTake s n = "" ↔ s = "" := by
  constructor
  · intro h
    have hdata : s.data.take n = [] := congrArg String.data h
    rcases List.take_eq_nil_iff.mp hdata with h' | h'
    · exact absurd h' hn
    · cases s
      simp only at h'
      rw [h']
  · intro h
    rw [h]
    unfold jsTake
    rw [show ("" : String).data = [] from rfl, List.take_nil]

/-- C7: with the phase at `answering` and a known non-host submitter,
`handleAnswerSubmit` rejects a duplicate submission, and rejects an
answer that is empty after trimming, in both cases returning the state
unchanged (answers, scores and phase included); an accepted answer is
stored trimmed and truncated to 100 characters, appended as that
player's single new entry. -/
theorem claim_C7 (gs : GameState) (pid : Option String) (raw : String)
    (now : Nat) (player : Player)
    (hfind : pid.bind (fun i => gs.players.find? (fun p => p.id == i)) =
      some player)
    (hphase : gs.phase = "answering")
    (hnothost : player.isHost = false) :
    (gs.answers.any (fun a => a.playerId == player.id) = true →
      handleAnswerSubmit gs pid raw now =
        (gs, .rejected "Already submitted")) ∧
    (gs.answers.any (fun a => a.playerId == player.id) = false →
      jsTrim raw = "" →
      handleAnswerSubmit gs pid raw now =
        (gs, .rejected "Answer cannot be empty")) ∧
    (gs.answers.any (fun a => a.playerId == player.id) = false →
      jsTrim raw ≠ "" →
      handleAnswerSubmit gs pid raw now =
        ({ gs with answers := gs.answers ++
            [{ playerId := player.id
               playerName := player.name
               answer := jsTake (jsTrim raw) 100
               timestamp := now
               penalty := false }] },
          .accepted (jsTake (jsTrim raw) 100)
            (gs.answers.length + 1 ≥
              (gs.players.filter (fun p => !p.isHost)).length))) := by
  have hph : (gs.phase != "answering") = false := by
    rw [hphase]
    decide
  refine ⟨?_, ?_, ?_⟩
  · intro hdup
    unfold handleAnswerSubmit
    rw [hfind]
    dsimp only
    rw [hph]
    rw [if_neg (by decide), if_neg (by rw [hnothost]; decide),
      if_pos hdup]
  · intro hdup hempty
    unfold handleAnswerSubmit
    rw [hfind]
    dsimp only
    rw [hph]
    rw [if_neg (by decide), if_neg (by rw [hnothost]; decide),
      if_neg (by rw [hdup]; decide)]
    rw [if_pos (beq_iff_eq.mpr ((jsTake_eq_empty_iff (jsTrim raw) 100
      (by decide)).mpr hempty))]
  · intro hdup hnonempty
    unfold handleAnswerSubmit
    rw [hfind]
    dsimp only
    rw [hph]
    rw [if_neg (by decide), if_neg (by rw [hnothost]; decide),
      if_neg (by rw [hdup]; decide)]
    rw [if_neg (fun hc => hnonempty
      ((jsTake_eq_empty_iff (jsTrim raw) 100 (by decide)).mp
        (beq_iff_eq.mp hc)))]
    rw [List.length_append]
    rfl

/-- C7 witness: in `answeringCexState`, Alice resubmitting is rejected
with the state unchanged, Bob submitting whitespace is rejected with the
state unchanged, and Bob submitting a 120-character answer stores its
first 100 characters. -/
theorem claim_C7_witness :
    handleAnswerSubmit answeringCexState (some "alice") "pasta" 7 =
      (answeringCexState, .rejected "Already submitted") ∧
    handleAnswerSubmit answeringCexState (some "bob") "   " 7 =
      (answeringCexState, .rejected "Answer cannot be empty") ∧
    (handleAnswerSubmit answeringCexState (some "bob")
      (String.mk (List.replicate 120 'x')) 7).2 =
      .accepted (String.mk (List.replicate 100 'x')) true := by
  have h := claim_C7 answeringCexState (some "alice") "pasta" 7
    { id := "alice", socketId := "s1", name := "Alice", score := 1,
      isHost := false, isConnected := true, joinOrder := 1,
      sessionToken := "t1", isTiedPlayer := false }
    (by decide) rfl rfl
  have hb := claim_C7 answeringCexState (some "bob") "   " 7
    { id := "bob", socketId := "s2", name := "Bob", score := 0,
      isHost := false, isConnected := true, joinOrder := 2,
      sessionToken := "t2", isTiedPlayer := false }
    (by decide) rfl rfl
  have hc := claim_C7 answeringCexState (some "bob")
    (String.mk (List.replicate 120 'x')) 7
    { id := "bob", socketId := "s2", name := "Bob", score := 0,
      isHost := false, isConnected := true, joinOrder := 2,
      sessionToken := "t2", isTiedPlayer := false }
    (by decide) rfl rfl
  refine ⟨h.1 (by decide), hb.2.1 (by decide) (by decide), ?_⟩
  rw [hc.2.2 (by decide) (by decide)]
  decide

/-- C8 counterexample: in a state reached by three joins, a game start
and the acting host's disconnect, the phase is `theme_select` (neither
`lobby` nor `game_over`) yet NO connected player has `isHost = true` —
`handleDisconnect` marks the host disconnected without reassigning the
role, so the claimed invariant fails. -/
theorem claim_C8_counterexample :
    traceStarted.phase = "theme_select" ∧
    (traceStarted.players.filter
      (fun p => p.isConnected && p.isHost)).length = 1 ∧
    traceDisconnected.phase = "theme_select" ∧
    (traceDisconnected.players.filter
      (fun p => p.isConnected && p.isHost)).length = 0 ∧
    (traceDisconnected.players.filter (fun p => p.isHost)).length = 1 := by
  decide

/-- C8 as amended: exactly one player — connected or not — has
`isHost = true` outside the lobby: every phase entry
(`startThemeSelection`, reached from game start and every next-round
transition) marks exactly one roster member as host when the roster is
nonempty with distinct ids, and `handleDisconnect` (which only clears
`isConnected`, never `isHost`), `handleAnswerSubmit` and
`endAnsweringPhase` preserve every player's `isHost` flag; hence after
the acting host disconnects, the unique host may be disconnected and the
connected-host count drops to zero. -/
theorem claim_C8_amended :
    (∀ gs : GameState, gs.players ≠ [] →
      gs.players.Pairwise (fun p q => p.id ≠ q.id) →
      ((startThemeSelection gs).players.filter
        (fun p => p.isHost)).length = 1) ∧
    (∀ (gs : GameState) (socketId : String),
      (handleDisconnect gs socketId).players.map (fun p => (p.id, p.isHost)) =
        gs.players.map (fun p => (p.id, p.isHost))) ∧
    (∀ (gs : GameState) (pid : Option String) (raw : String) (now : Nat),
      (handleAnswerSubmit gs pid raw now).1.players = gs.players) ∧
    (∀ (pen : Int) (now : Nat) (gs : GameState),
      gs.players.Pairwise (fun p q => p.id ≠ q.id) →
      (endAnsweringPhase pen now gs).players.map (fun p => (p.id, p.isHost)) =
        gs.players.map (fun p => (p.id, p.isHost))) := by
  refine ⟨?_, ?_, ?_, ?_⟩
  · intro gs hne hids
    obtain ⟨host, hh, hget⟩ := getCurrentHost_eq_some
      { gs with
        phase := "theme_select"
        selectedTheme := none
        answers := []
        matchGuesses := []
        roundResults := [] } hne
    have hhostmem : host ∈ gs.players := List.getElem?_mem hget
    unfold startThemeSelection
    dsimp only
    rw [hh]
    dsimp only
    rw [List.filter_map]
    rw [List.length_map]
    have heq : gs.players.filter
        ((fun p => p.isHost) ∘ (fun p =>
          { p with isHost := p.id == host.id })) =
        gs.players.filter (fun p => p.id == host.id) := by
      apply List.filter_congr
      intro q _
      rfl
    rw [heq]
    apply (filter_key_once Player.id gs.players host.id hids).1
    exact List.any_eq_true.mpr ⟨host, hhostmem, beq_self_eq_true _⟩
  · intro gs socketId
    unfold handleDisconnect
    rcases hb : gs.players.find? (fun p => p.socketId == socketId)
      with _ | player
    · rw [hb]
    · rw [hb]
      dsimp only
      rw [List.map_map]
      apply List.map_congr_left
      intro q _
      by_cases hq : q.id = player.id <;> simp [hq]
  · intro gs pid raw now
    unfold handleAnswerSubmit
    rcases hb : pid.bind (fun i => gs.players.find? (fun p => p.id == i))
      with _ | player
    · rw [hb]
    · rw [hb]
      dsimp only
      split
      · rfl
      · split
        · rfl
        · split
          · rfl
          · split
            · rfl
            · rfl
  · intro pen now gs hids
    have hpwL : (gs.players.filter (fun p => !p.isHost)).Pairwise
        (fun p q => p.id ≠ q.id) := hids.filter _
    obtain ⟨-, hpl⟩ := answerPenalty_foldl pen now
      (gs.players.filter (fun p => !p.isHost)) gs hpwL
    unfold endAnsweringPhase
    rw [hpl, List.map_map]
    apply List.map_congr_left
    intro q _
    simp only [Function.comp_apply]
    by_cases hq : ((gs.players.filter (fun p => !p.isHost)).any
        (fun p => p.id == q.id) &&
        !(gs.answers.any (fun a => a.playerId == q.id))) = true
    · rw [if_pos hq]
    · rw [if_neg hq]

/-- C8 witness: the amended invariant evaluated on the concrete trace —
after the game start exactly one player carries `isHost`, and the host
disconnect leaves the `(id, isHost)` assignment untouched. -/
theorem claim_C8_amended_witness :
    ((startThemeSelection traceLobby).players.filter
      (fun p => p.isHost)).length = 1 ∧
    traceDisconnected.players.map (fun p => (p.id, p.isHost)) =
      traceStarted.players.map (fun p => (p.id, p.isHost)) := by
  constructor
  · exact claim_C8_amended.1 traceLobby (by decide) (by decide)
  · exact claim_C8_amended.2.1 traceStarted "s1"

theorem natReprAux_eq :
    ∀ (fuel n : Nat) (acc : List Char), n ≤ fuel →
      natReprAux fuel n acc = natReprList n ++ acc := by
  intro fuel
  induction fuel with
  | zero =>
    intro n acc hn
    have : n = 0 := Nat.le_zero.mp hn
    subst this
    rw [natReprList]
    rfl
  | succ fuel ih =>
    intro n acc hn
    match n with
    | 0 => rw [natReprList]; rfl
    | m + 1 =>
      show natReprAux fuel ((m + 1) / 10)
          (Char.ofNat (48 + (m + 1) % 10) :: acc) = _
      have hdiv : (m + 1) / 10 ≤ fuel :=
        Nat.le_of_lt_succ (Nat.lt_of_lt_of_le
          (Nat.div_lt_self (Nat.succ_pos m) (by decide)) hn)
      rw [ih ((m + 1) / 10) (Char.ofNat (48 + (m + 1) % 10) :: acc) hdiv]
      conv_rhs => rw [natReprList]
      rw [List.append_assoc]
      rfl

theorem toNat_digitChar (d : Nat) (hd : d < 10) :
    (Char.ofNat (48 + d)).toNat = 48 + d := by
  interval_cases d <;> decide

theorem digitsVal_natReprList : ∀ n, digitsVal (natReprList n) = n := by
  intro n
  induction n using Nat.strong_induction_on with
  | _ n ih =>
    match n with
    | 0 => rw [show natReprList 0 = [] by rw [natReprList]]; rfl
    | m + 1 =>
      rw [natReprList]
      unfold digitsVal
      rw [List.foldl_append]
      have ihv := ih ((m + 1) / 10)
        (Nat.div_lt_self (Nat.succ_pos m) (by decide))
      unfold digitsVal at ihv
      rw [ihv]
      show (m + 1) / 10 * 10 + ((Char.ofNat (48 + (m + 1) % 10)).toNat - 48)
        = m + 1
      rw [toNat_digitChar ((m + 1) % 10) (Nat.mod_lt _ (by decide))]
      omega

theorem natReprList_injective : Function.Injective natReprList := by
  intro n m h
  have := digitsVal_natReprList n
  rw [h, digitsVal_natReprList m] at this
  exact this.symm

theorem natReprList_digits :
    ∀ n, ∀ c ∈ natReprList n, 48 ≤ c.toNat ∧ c.toNat ≤ 57 := by
  intro n
  induction n using Nat.strong_induction_on with
  | _ n ih =>
    match n with
    | 0 => intro c hc; rw [natReprList] at hc; cases hc
    | m + 1 =>
      intro c hc
      rw [natReprList] at hc
      rcases List.mem_append.mp hc with hc' | hc'
      · exact ih ((m + 1) / 10)
          (Nat.div_lt_self (Nat.succ_pos m) (by decide)) c hc'
      · have : c = Char.ofNat (48 + (m + 1) % 10) := by
          simpa using hc'
        subst this
        rw [toNat_digitChar ((m + 1) % 10) (Nat.mod_lt _ (by decide))]
        omega

theorem toLower_digit (c : Char) (h1 : 48 ≤ c.toNat) (h2 : c.toNat ≤ 57) :
    c.toLower = c := by
  unfold Char.toLower
  rw [if_neg]
  omega

theorem natRepr_data_digits :
    ∀ n, ∀ c ∈ (natRepr n).data, 48 ≤ c.toNat ∧ c.toNat ≤ 57 := by
  intro n c hc
  unfold natRepr at hc
  by_cases hn : (n == 0) = true
  · rw [if_pos hn] at hc
    have : c = '0' := by simpa using hc
    subst this
    exact ⟨by decide, by decide⟩
  · rw [if_neg hn] at hc
    have hdata : (String.mk (natReprAux n n [])).data = natReprList n := by
      show natReprAux n n [] = natReprList n
      rw [natReprAux_eq n n [] (le_refl n), List.append_nil]
    rw [hdata] at hc
    exact natReprList_digits n c hc

theorem natRepr_injective : Function.Injective natRepr := by
  intro n m h
  unfold natRepr at h
  by_cases hn : (n == 0) = true <;> by_cases hm : (m == 0) = true
  · rw [beq_iff_eq.mp hn, beq_iff_eq.mp hm]
  · rw [if_pos hn, if_neg hm] at h
    exfalso
    have hdata : ("0" : String).data = (String.mk (natReprAux m m [])).data :=
      congrArg String.data h
    have hm' : natReprAux m m [] = natReprList m := by
      rw [natReprAux_eq m m [] (le_refl m), List.append_nil]
    have hval : digitsVal ("0" : String).data = digitsVal (natReprList m) := by
      rw [hdata]
      show digitsVal (natReprAux m m []) = _
      rw [hm']
    rw [digitsVal_natReprList m] at hval
    have : digitsVal ("0" : String).data = 0 := by decide
    rw [this] at hval
    exact hm (beq_iff_eq.mpr hval.symm)
  · rw [if_neg hn, if_pos hm] at h
    exfalso
    have hdata : (String.mk (natReprAux n n [])).data = ("0" : String).data :=
      congrArg String.data h
    have hn' : natReprAux n n [] = natReprList n := by
      rw [natReprAux_eq n n [] (le_refl n), List.append_nil]
    have hval : digitsVal (natReprList n) = digitsVal ("0" : String).data := by
      rw [← hn']
      exact congrArg digitsVal hdata
    rw [digitsVal_natReprList n] at hval
    have : digitsVal ("0" : String).data = 0 := by decide
    rw [this] at hval
    exact hn (beq_iff_eq.mpr hval)
  · rw [if_neg hn, if_neg hm] at h
    have hdata : natReprAux n n [] = natReprAux m m [] := by
      exact congrArg String.data h
    rw [natReprAux_eq n n [] (le_refl n), natReprAux_eq m m [] (le_refl m),
      List.append_nil, List.append_nil] at hdata
    exact natReprList_injective hdata

/-- Lowercasing keeps distinct counters distinct: the lowercase forms of
`base(k1)` and `base(k2)` agree only when `k1 = k2` (parenthesis and
digit characters are fixed points of `toLower`). -/
theorem joinNameCandidate_lower_inj (b : String) (k1 k2 : Nat)
    (h : jsToLower (joinNameCandidate b k1) =
      jsToLower (joinNameCandidate b k2)) : k1 = k2 := by
  have hdata : (b.data ++ ['(' ] ++ (natRepr k1).data ++ [')']).map
      Char.toLower =
      (b.data ++ ['('] ++ (natRepr k2).data ++ [')']).map Char.toLower := by
    have := congrArg String.data h
    simpa [jsToLower, joinNameCandidate, List.append_assoc] using this
  have hfix : ∀ k : Nat, (natRepr k).data.map Char.toLower =
      (natRepr k).data := by
    intro k
    calc (natRepr k).data.map Char.toLower
        = (natRepr k).data.map id := by
          apply List.map_congr_left
          intro c hc
          obtain ⟨h1, h2⟩ := natRepr_data_digits k c hc
          exact toLower_digit c h1 h2
      _ = (natRepr k).data := List.map_id _
  rw [List.map_append, List.map_append, List.map_append,
    List.map_append, List.map_append, List.map_append] at hdata
  rw [hfix k1, hfix k2] at hdata
  have hmid : b.data.map Char.toLower ++ ['('].map Char.toLower ++
      (natRepr k1).data = b.data.map Char.toLower ++
      ['('].map Char.toLower ++ (natRepr k2).data :=
    List.append_cancel_right hdata
  have hrk : (natRepr k1).data = (natRepr k2).data :=
    List.append_cancel_left hmid
  exact natRepr_injective (String.ext hrk)

/-- Pigeonhole: among `existing.length + 1` successive counters starting
anywhere, some candidate's lowercase form is absent from `existing`. -/
theorem exists_free_candidate (existing : List String) (b : String)
    (k : Nat) :
    ∃ j, k ≤ j ∧ j < k + (existing.length + 1) ∧
      existing.contains (jsToLower (joinNameCandidate b j)) = false := by
  by_contra hcon
  push_neg at hcon
  have hall : ∀ j, k ≤ j → j < k + (existing.length + 1) →
      jsToLower (joinNameCandidate b j) ∈ existing := by
    intro j h1 h2
    have hne := hcon j h1 h2
    cases hc : existing.contains (jsToLower (joinNameCandidate b j)) with
    | false => exact absurd hc hne
    | true => exact List.elem_iff.mp hc
  have hnodup : ((List.range (existing.length + 1)).map
      (fun i => jsToLower (joinNameCandidate b (k + i)))).Nodup := by
    apply List.Nodup.map
    · intro i1 i2 hi
      have := joinNameCandidate_lower_inj b (k + i1) (k + i2) hi
      omega
    · exact List.nodup_range _
  have hsubset : ((List.range (existing.length + 1)).map
      (fun i => jsToLower (joinNameCandidate b (k + i)))) ⊆ existing := by
    intro x hx
    obtain ⟨i, hi, rfl⟩ := List.mem_map.mp hx
    exact hall (k + i) (Nat.le_add_right _ _)
      (by have := List.mem_range.mp hi; omega)
  have hlen := (List.subperm_of_subset hnodup hsubset).length_le
  rw [List.length_map, List.length_range] at hlen
  omega

/-- The deduplication loop returns the first free candidate at or after
its starting counter, provided one exists within its fuel. -/
theorem computeJoinNameAux_spec (existing : List String) (b : String) :
    ∀ (fuel k : Nat),
      (∃ j, k ≤ j ∧ j < k + fuel ∧
        existing.contains (jsToLower (joinNameCandidate b j)) = false) →
      ∃ k', k ≤ k' ∧
        computeJoinNameAux existing b k fuel = joinNameCandidate b k' ∧
        existing.contains (jsToLower (joinNameCandidate b k')) = false := by
  intro fuel
  induction fuel with
  | zero =>
    intro k h
    obtain ⟨j, h1, h2, -⟩ := h
    omega
  | succ fuel ih =>
    intro k h
    obtain ⟨j, h1, h2, hfree⟩ := h
    by_cases hc : existing.contains (jsToLower (joinNameCandidate b k))
        = true
    · have hjk : j ≠ k := by
        intro hjk
        rw [hjk, hc] at hfree
        exact absurd hfree (by decide)
      obtain ⟨k', hk1, hk2, hk3⟩ := ih (k + 1)
        ⟨j, by omega, by omega, hfree⟩
      refine ⟨k', by omega, ?_, hk3⟩
      show computeJoinNameAux existing b k (fuel + 1) = _
      unfold computeJoinNameAux
      rw [if_pos hc]
      exact hk2
    · refine ⟨k, le_refl k, ?_, Bool.eq_false_iff.mpr hc⟩
      show computeJoinNameAux existing b k (fuel + 1) = _
      unfold computeJoinNameAux
      rw [if_neg hc]

/-- C9 counterexample: the deduplication suffix is appended AFTER the
20-character truncation, so the second player's stored name is the
23-character `AAAAAAAAAAAAAAAAAAAA(2)`, violating the claimed
20-character limit. -/
theorem claim_C9_counterexample :
    longNameJoined.players.map (fun p => p.name) =
      ["AAAAAAAAAAAAAAAAAAAA", "AAAAAAAAAAAAAAAAAAAA(2)"] ∧
    20 < ("AAAAAAAAAAAAAAAAAAAA(2)" : String).length := by
  decide

/-- C9 as amended: an accepted join stores the name computed by the
deduplication procedure: when the trimmed, 20-character-truncated input
is not yet taken (case-insensitively) it is stored as is — and then
respects the 20-character limit; when it is taken, the suffix `(2)`,
`(3)`, … is appended deterministically until unique, which can push the
stored name past 20 characters (up to 20 plus the suffix length).  In
both cases the stored name differs, even case-insensitively, from every
present player's name, so names within a room stay distinct. -/
theorem claim_C9_amended (rm : RoomManagerState) (cfgMaxPlayers : Nat)
    (gs : GameState) (nm : String) (roomCode : JSVal)
    (newId socketId sessionToken : String)
    (hroom : validateRoom rm roomCode = true)
    (hlobby : gs.phase = "lobby")
    (hroomful : gs.players.length < cfgMaxPlayers) :
    (∃ player : Player,
      handlePlayerJoin rm cfgMaxPlayers gs nm roomCode newId socketId
          sessionToken =
        ({ gs with
            players := gs.players ++ [player]
            currentHost := if player.isHost then some player.id
              else gs.currentHost }, .joined player) ∧
      player.name = computeJoinName gs.players nm) ∧
    ((gs.players.map (fun p => jsToLower p.name)).contains
        (jsToLower (jsTake (jsTrim nm) 20)) = false →
      computeJoinName gs.players nm = jsTake (jsTrim nm) 20 ∧
      (computeJoinName gs.players nm).length ≤ 20) ∧
    ((gs.players.map (fun p => jsToLower p.name)).contains
        (jsToLower (jsTake (jsTrim nm) 20)) = true →
      ∃ k, 2 ≤ k ∧ computeJoinName gs.players nm =
        joinNameCandidate (jsTake (jsTrim nm) 20) k) ∧
    (gs.players.map (fun p => jsToLower p.name)).contains
      (jsToLower (computeJoinName gs.players nm)) = false ∧
    (∀ p ∈ gs.players, p.name ≠ computeJoinName gs.players nm) := by
  have hbase : ∀ htaken : (gs.players.map (fun p => jsToLower p.name)).contains
      (jsToLower (jsTake (jsTrim nm) 20)) = true,
      ∃ k, 2 ≤ k ∧
        computeJoinName gs.players nm =
          joinNameCandidate (jsTake (jsTrim nm) 20) k ∧
        (gs.players.map (fun p => jsToLower p.name)).contains
          (jsToLower (joinNameCandidate (jsTake (jsTrim nm) 20) k))
          = false := by
    intro htaken
    obtain ⟨j, hj1, hj2, hjfree⟩ := exists_free_candidate
      (gs.players.map (fun p => jsToLower p.name)) (jsTake (jsTrim nm) 20) 2
    obtain ⟨k', hk1, hk2, hk3⟩ := computeJoinNameAux_spec
      (gs.players.map (fun p => jsToLower p.name)) (jsTake (jsTrim nm) 20)
      ((gs.players.map (fun p => jsToLower p.name)).length + 1) 2
      ⟨j, hj1, by
        rw [List.length_map] at hj2 ⊢
        exact hj2, hjfree⟩
    refine ⟨k', hk1, ?_, hk3⟩
    unfold computeJoinName
    dsimp only
    rw [if_pos htaken]
    rw [List.length_map] at hk2 ⊢
    exact hk2
  have hfree : (gs.players.map (fun p => jsToLower p.name)).contains
      (jsToLower (computeJoinName gs.players nm)) = false := by
    cases htaken : (gs.players.map (fun p => jsToLower p.name)).contains
        (jsToLower (jsTake (jsTrim nm) 20)) with
    | false =>
      have : computeJoinName gs.players nm = jsTake (jsTrim nm) 20 := by
        unfold computeJoinName
        dsimp only
        rw [if_neg (by rw [htaken]; exact Bool.false_ne_true)]
      rw [this]
      exact htaken
    | true =>
      obtain ⟨k, -, hk2, hk3⟩ := hbase htaken
      rw [hk2]
      exact hk3
  refine ⟨?_, ?_, ?_, hfree, ?_⟩
  · refine ⟨{ id := newId
              socketId := socketId
              name := computeJoinName gs.players nm
              score := 0
              isHost := gs.players.length == 0
              isConnected := true
              joinOrder := gs.players.length
              sessionToken := sessionToken
              isTiedPlayer := false }, ?_, rfl⟩
    unfold handlePlayerJoin
    rw [hroom]
    rw [if_neg (by decide)]
    rw [if_neg (by rw [hlobby]; decide)]
    rw [if_neg (Nat.not_le.mpr hroomful)]
  · intro hfresh
    have hval : computeJoinName gs.players nm = jsTake (jsTrim nm) 20 := by
      unfold computeJoinName
      dsimp only
      rw [if_neg (by rw [hfresh]; exact Bool.false_ne_true)]
    refine ⟨hval, ?_⟩
    rw [hval]
    have hlen : (jsTake (jsTrim nm) 20).length =
        ((jsTrim nm).data.take 20).length := rfl
    rw [hlen, List.length_take]
    omega
  · intro htaken
    obtain ⟨k, hk1, hk2, -⟩ := hbase htaken
    exact ⟨k, hk1, hk2⟩
  · intro p hp hname
    have hmem : jsToLower (computeJoinName gs.players nm) ∈
        gs.players.map (fun p => jsToLower p.name) := by
      rw [← hname]
      exact List.mem_map_of_mem _ hp
    have hcontr : (gs.players.map (fun p => jsToLower p.name)).contains
        (jsToLower (computeJoinName gs.players nm)) = true :=
      List.elem_iff.mpr hmem
    rw [hcontr] at hfree
    exact absurd hfree (by decide)

/-- C9 witness: joining `longNameLobby` (one player named twenty `A`s)
with the same name again is accepted and stores the deduplicated name
`AAAAAAAAAAAAAAAAAAAA(2)`, distinct from the existing player's name. -/
theorem claim_C9_amended_witness :
    computeJoinName longNameLobby.players "AAAAAAAAAAAAAAAAAAAA" =
      joinNameCandidate "AAAAAAAAAAAAAAAAAAAA" 2 ∧
    (∀ p ∈ longNameLobby.players,
      p.name ≠ computeJoinName longNameLobby.players
        "AAAAAAAAAAAAAAAAAAAA") := by
  have h := claim_C9_amended traceRm 10 longNameLobby "AAAAAAAAAAAAAAAAAAAA"
    (.vstr "ABCD") "id2" "s2" "t2" (by decide) (by decide) (by decide)
  obtain ⟨k, hk1, hk2⟩ := h.2.2.1 (by decide)
  have hkval : k = 2 := by
    have hkd : computeJoinName longNameLobby.players "AAAAAAAAAAAAAAAAAAAA" =
        joinNameCandidate "AAAAAAAAAAAAAAAAAAAA" 2 := by decide
    have := hk2.symm.trans hkd
    by_contra hne
    have h3 : 3 ≤ k := by omega
    have := joinNameCandidate_lower_inj "AAAAAAAAAAAAAAAAAAAA" k 2
      (congrArg jsToLower this)
    omega
  refine ⟨?_, h.2.2.2.2⟩
  rw [hk2, hkval]
  decide

end KnowYourCrowd
